import Mathlib

/-!
# Benchmark state of `workloads/state.go`

A shallow embedding of `State.Init`, `State.ReportThroughput`,
`State.MeasureLatency` and `State.ReportSummary`, for one worker running
sequentially.

* `int64` counters are integers reduced by `wrap64` after every increment.
* Go maps are association lists; a missing key of `Latency` is a nil `*Stats`,
  and a method call on it aborts the run (`none` / `Exec.panicked`).
* The database, the workload generator and the clock are external: they are
  functions over an arbitrary world `W`, so they may be stateful, random and
  failing.  The blocks note each call in a chronological trace; statements
  about the calls made are about the log that `recording` collaborators write
  themselves when they are called, which the blocks cannot write.
* A latency sketch is the list of samples added to it; `Count()` is its length,
  `Percentile` and `Mean` are parameters.  The width of the sketch's own counter
  is not part of the embedding.
* The `sync.WaitGroup` bookkeeping (`defer wg.Done()`) is outside the embedding.
-/

namespace Workloads

/-! ## Machine integers -/

/-- Two's-complement reduction of an integer to the `int64` range. -/
def wrap64 (x : Int) : Int :=
  (x + 9223372036854775808) % 18446744073709551616 - 9223372036854775808

/-- The Go statement `x++` on an `int64`. -/
def inc64 (x : Int) : Int := wrap64 (x + 1)

/-- Values representable as `int64`. -/
def InRange64 (x : Int) : Prop :=
  -9223372036854775808 ≤ x ∧ x < 9223372036854775808

instance (x : Int) : Decidable (InRange64 x) := by
  unfold InRange64; infer_instance

/-! ## Go maps with string keys -/

/-- The Go expression `m[k]` for a map whose zero value is `d`. -/
def mapGet {α : Type} (m : List (String × α)) (k : String) (d : α) : α :=
  (m.lookup k).getD d

/-- The Go statement `m[k] = v`. -/
def mapSet {α : Type} (m : List (String × α)) (k : String) (v : α) : List (String × α) :=
  match m.lookup k with
  | none => m ++ [(k, v)]
  | some _ => m.map fun e => if e.1 == k then (e.1, v) else e

/-! ## Data model -/

/-- The struct `State`.  Timestamps and durations are integers; a sketch is the
list of its samples. -/
structure State where
  Operations : Int
  Records : Int
  Errors : List (String × Int)
  Events : List (String × Int)
  Latency : List (String × List Int)
deriving DecidableEq, Repr

/-- Modelled from the spec: the struct `Config` is declared outside `src/`; the
fields are the ones `state.go` reads and section 3 of the spec lists. -/
structure Config where
  Operations : Int
  CreatePercentage : Int
  ReadPercentage : Int
  UpdatePercentage : Int
  DeletePercentage : Int
  QueryPercentage : Int
  IndexableFields : List String
  ValueSize : Int
deriving DecidableEq, Repr

/-- Modelled from the spec: the interface `Workload` is declared outside `src/`;
the methods are the ones `MeasureLatency` calls.  Each one may read and change
the world. -/
structure Workload (W V Q : Type) where
  GenerateNewKey : Int → W → String × W
  GenerateExistingKey : Int → W → String × W
  GenerateKeyForRemoval : W → String × W
  GenerateValue : String → List String → Int → W → V × W
  GenerateQuery : List String → Int → W → (String × Q × Int) × W

/-- Modelled from the spec: the interface `databases.Database` is declared
outside `src/`.  The boolean says whether the call succeeded; the caller
discards it together with any returned data. -/
structure Database (W V Q : Type) where
  Create : String → V → W → Bool × W
  Read : String → W → Bool × W
  Update : String → V → W → Bool × W
  Delete : String → W → Bool × W
  Query : String → Q → Int → W → Bool × W

/-- The standard-library and `summstat` operations the code relies on:
`time.Now`, `time.Sleep`, `Time.Sub`, `Stats.Percentile` and `Stats.Mean`. -/
structure Runtime (W : Type) where
  now : W → Int × W
  sleep : Int → W → W
  sub : Int → Int → Int
  percentile : List Int → ℚ → Int
  mean : List Int → Int

/-- The five operation kinds. -/
inductive Kind
  | Create | Read | Update | Delete | Query
deriving DecidableEq, Repr

/-- External calls made by the executor, with the arguments the statements below
refer to. -/
inductive Call
  | GenerateNewKey (records : Int)
  | GenerateExistingKey (records : Int)
  | GenerateKeyForRemoval
  | GenerateValue (key : String)
  | GenerateQuery (records : Int)
  | Create (key : String)
  | Read (key : String)
  | Update (key : String)
  | Delete (key : String)
  | Query (field : String) (limit : Int)
  | Sleep (duration : Int)
deriving DecidableEq, Repr

/-- The kind of a database call; `none` for workload and clock calls. -/
def Call.dbKind : Call → Option Kind
  | Call.Create _ => some Kind.Create
  | Call.Read _ => some Kind.Read
  | Call.Update _ => some Kind.Update
  | Call.Delete _ => some Kind.Delete
  | Call.Query _ _ => some Kind.Query
  | _ => none

/-- The database calls of a trace, in order, by kind. -/
def dbKinds (trace : List Call) : List Kind := trace.filterMap Call.dbKind

/-- Number of loop iterations completed in a trace: one sleep ends each. -/
def sleeps (trace : List Call) : Nat :=
  (trace.filter fun c => match c with | Call.Sleep _ => true | _ => false).length

/-- Everything a run acts on: the shared `State`, the outside world, and the
calls made so far. -/
structure Sys (W : Type) where
  state : State
  world : W
  trace : List Call

/-- Result of running a loop with a bound on the number of iterations. -/
inductive Exec (α : Type)
  | returned (a : α)
  | panicked
  | outOfFuel

/-- The collaborators of a run. -/
structure Env (W V Q : Type) where
  database : Database W V Q
  workload : Workload W V Q
  runtime : Runtime W

/-- The constant `time.Second`, in nanoseconds. -/
def second : Int := 1000000000

/-- The key of `Latency` used by each kind. -/
def Kind.name : Kind → String
  | Kind.Create => "Create"
  | Kind.Read => "Read"
  | Kind.Update => "Update"
  | Kind.Delete => "Delete"
  | Kind.Query => "Query"

/-! ## `State.Init` -/

/-- The result of `summstat.NewStats()`: a sketch without samples. -/
def newStats : List Int := []

/-- The method `State.Init`: three fresh maps and five fresh sketches; the two
counters are not touched. -/
def State.Init (state : State) : State :=
  let latency : List (String × List Int) := []
  let latency := mapSet latency "Create" newStats
  let latency := mapSet latency "Read" newStats
  let latency := mapSet latency "Update" newStats
  let latency := mapSet latency "Delete" newStats
  let latency := mapSet latency "Query" newStats
  { state with Errors := [], Events := [], Latency := latency }

/-- The Go zero value `State{}`: both counters 0 and the three maps nil. -/
def State.zero : State :=
  { Operations := 0, Records := 0, Errors := [], Events := [], Latency := [] }

/-! ## `State.MeasureLatency` -/

/-- The call `state.Latency[op].AddSample(sample)`: `none` when the entry is
missing (nil receiver). -/
def addSample (latency : List (String × List Int)) (op : String) (sample : Int) :
    Option (List (String × List Int)) :=
  match latency.lookup op with
  | none => none
  | some _ => some (latency.map fun e => if e.1 == op then (e.1, e.2 ++ [sample]) else e)

/-- The call `state.Latency[op].Count()`: `none` when the entry is missing. -/
def count (latency : List (String × List Int)) (op : String) : Option Nat :=
  (latency.lookup op).map List.length

variable {W V Q : Type}

/-- Lines 51-60: the Create block. -/
def createStep (env : Env W V Q) (config : Config) (s : Sys W) : Option (Sys W) :=
  if config.CreatePercentage > 0 then
    let operations := inc64 s.state.Operations
    let records := inc64 s.state.Records
    let key := env.workload.GenerateNewKey records s.world
    let value := env.workload.GenerateValue key.1 config.IndexableFields config.ValueSize key.2
    let t0 := env.runtime.now value.2
    let res := env.database.Create key.1 value.1 t0.2
    let t1 := env.runtime.now res.2
    (addSample s.state.Latency "Create" (env.runtime.sub t1.1 t0.1)).map fun latency =>
      { state := { s.state with Operations := operations, Records := records,
                                Latency := latency },
        world := t1.2,
        trace := s.trace ++ [Call.GenerateNewKey records, Call.GenerateValue key.1,
                             Call.Create key.1] }
  else some s

/-- Lines 61-68: the Read block. -/
def readStep (env : Env W V Q) (config : Config) (s : Sys W) : Option (Sys W) :=
  if config.ReadPercentage > 0 then
    let operations := inc64 s.state.Operations
    let key := env.workload.GenerateExistingKey s.state.Records s.world
    let t0 := env.runtime.now key.2
    let res := env.database.Read key.1 t0.2
    let t1 := env.runtime.now res.2
    (addSample s.state.Latency "Read" (env.runtime.sub t1.1 t0.1)).map fun latency =>
      { state := { s.state with Operations := operations, Latency := latency },
        world := t1.2,
        trace := s.trace ++ [Call.GenerateExistingKey s.state.Records, Call.Read key.1] }
  else some s

/-- Lines 69-77: the Update block. -/
def updateStep (env : Env W V Q) (config : Config) (s : Sys W) : Option (Sys W) :=
  if config.UpdatePercentage > 0 then
    let operations := inc64 s.state.Operations
    let key := env.workload.GenerateExistingKey s.state.Records s.world
    let value := env.workload.GenerateValue key.1 config.IndexableFields config.ValueSize key.2
    let t0 := env.runtime.now value.2
    let res := env.database.Update key.1 value.1 t0.2
    let t1 := env.runtime.now res.2
    (addSample s.state.Latency "Update" (env.runtime.sub t1.1 t0.1)).map fun latency =>
      { state := { s.state with Operations := operations, Latency := latency },
        world := t1.2,
        trace := s.trace ++ [Call.GenerateExistingKey s.state.Records,
                             Call.GenerateValue key.1, Call.Update key.1] }
  else some s

/-- Lines 78-85: the Delete block. -/
def deleteStep (env : Env W V Q) (config : Config) (s : Sys W) : Option (Sys W) :=
  if config.DeletePercentage > 0 then
    let operations := inc64 s.state.Operations
    let key := env.workload.GenerateKeyForRemoval s.world
    let t0 := env.runtime.now key.2
    let res := env.database.Delete key.1 t0.2
    let t1 := env.runtime.now res.2
    (addSample s.state.Latency "Delete" (env.runtime.sub t1.1 t0.1)).map fun latency =>
      { state := { s.state with Operations := operations, Latency := latency },
        world := t1.2,
        trace := s.trace ++ [Call.GenerateKeyForRemoval, Call.Delete key.1] }
  else some s

/-- Lines 86-94: the Query block. -/
def queryStep (env : Env W V Q) (config : Config) (s : Sys W) : Option (Sys W) :=
  if config.QueryPercentage > 0 then
    let operations := inc64 s.state.Operations
    let q := env.workload.GenerateQuery config.IndexableFields s.state.Records s.world
    let t0 := env.runtime.now q.2
    let res := env.database.Query q.1.1 q.1.2.1 q.1.2.2 t0.2
    let t1 := env.runtime.now res.2
    (addSample s.state.Latency "Query" (env.runtime.sub t1.1 t0.1)).map fun latency =>
      { state := { s.state with Operations := operations, Latency := latency },
        world := t1.2,
        trace := s.trace ++ [Call.GenerateQuery s.state.Records,
                             Call.Query q.1.1 q.1.2.2] }
  else some s

/-- Line 95: `time.Sleep(time.Second)`. -/
def sleepStep (env : Env W V Q) (s : Sys W) : Sys W :=
  { s with world := env.runtime.sleep second s.world,
           trace := s.trace ++ [Call.Sleep second] }

/-- Lines 51-95: one pass through the body of the loop. -/
def iteration (env : Env W V Q) (config : Config) (s : Sys W) : Option (Sys W) :=
  (((((createStep env config s).bind (readStep env config)).bind
    (updateStep env config)).bind (deleteStep env config)).bind
    (queryStep env config)).map (sleepStep env)

/-- The method `State.MeasureLatency` run by one worker, with at most `fuel`
iterations of `for state.Operations < config.Operations`. -/
def MeasureLatency (env : Env W V Q) (config : Config) : Nat → Sys W → Exec (Sys W)
  | 0, s =>
    if s.state.Operations < config.Operations then Exec.outOfFuel else Exec.returned s
  | fuel + 1, s =>
    if s.state.Operations < config.Operations then
      match iteration env config s with
      | none => Exec.panicked
      | some s' => MeasureLatency env config fuel s'
    else Exec.returned s

/-- The state after `n` passes through the loop body, whatever the guard says. -/
def iterations (env : Env W V Q) (config : Config) : Nat → Sys W → Option (Sys W)
  | 0, s => some s
  | n + 1, s => (iteration env config s).bind (iterations env config n)

/-! ## `State.ReportThroughput` -/

/-- Lines written to standard output. -/
inductive Line
  | benchmarkStarted
  | throughput (seconds : Int) (opsPerSec : Int) (operations : Int) (errors : Int)
  | latencyHeader (op : String)
  | percentile80 (d : Int)
  | percentile90 (d : Int)
  | percentile95 (d : Int)
  | mean (d : Int)
  | errorsHeader
  | errorCount (label : String) (n : Int)
  | timeElapsed (d : Int)
deriving DecidableEq, Repr

/-- Lines 36-43: the reporter loop with its two local variables; `int` is taken
to be 64 bits wide. -/
def reportLoop (env : Env W V Q) (config : Config) :
    Nat → Int → Int → Sys W → List Line → Exec (Sys W × List Line)
  | 0, _, _, s, out =>
    if s.state.Operations < config.Operations then Exec.outOfFuel
    else Exec.returned (s, out)
  | fuel + 1, opsDone, samples, s, out =>
    if s.state.Operations < config.Operations then
      let s1 : Sys W := { s with world := env.runtime.sleep (10 * second) s.world,
                                 trace := s.trace ++ [Call.Sleep (10 * second)] }
      let throughput := Int.tdiv (wrap64 (s1.state.Operations - opsDone)) 10
      let opsDone := s1.state.Operations
      reportLoop env config fuel opsDone (inc64 samples) s1
        (out ++ [Line.throughput (wrap64 (samples * 10)) throughput opsDone
                  (mapGet s1.state.Errors "total" 0)])
    else Exec.returned (s, out)

/-- The method `State.ReportThroughput`, run while no executor runs. -/
def ReportThroughput (env : Env W V Q) (config : Config) (fuel : Nat) (s : Sys W) :
    Exec (Sys W × List Line) :=
  reportLoop env config fuel 0 1 s [Line.benchmarkStarted]

/-! ## `State.ReportSummary` -/

/-- Lines 102-110: the block printed for one kind. -/
def latencyBlock (rt : Runtime W) (op : String) (stats : List Int) : List Line :=
  [Line.latencyHeader op,
   Line.percentile80 (rt.percentile stats 0.8),
   Line.percentile90 (rt.percentile stats 0.9),
   Line.percentile95 (rt.percentile stats 0.95),
   Line.mean (rt.mean stats)]

/-- Lines 100-112: the loop over the kind names; `none` when a sketch is nil. -/
def reportLatency (rt : Runtime W) (latency : List (String × List Int)) :
    List String → Option (List Line)
  | [] => some []
  | op :: rest =>
    match latency.lookup op with
    | none => none
    | some stats =>
      (reportLatency rt latency rest).map fun out =>
        (if stats.length > 0 then latencyBlock rt op stats else []) ++ out

/-- Lines 113-121: the error section. -/
def reportErrors (errors : List (String × Int)) : List Line :=
  if errors.length > 0 then
    [Line.errorsHeader,
     Line.errorCount "Create" (mapGet errors "c" 0),
     Line.errorCount "Read" (mapGet errors "r" 0),
     Line.errorCount "Update" (mapGet errors "u" 0),
     Line.errorCount "Delete" (mapGet errors "d" 0),
     Line.errorCount "Query" (mapGet errors "q" 0),
     Line.errorCount "Total" (mapGet errors "total" 0)]
  else []

/-- The method `State.ReportSummary`: the lines it prints. -/
def ReportSummary (rt : Runtime W) (state : State) : Option (List Line) :=
  (reportLatency rt state.Latency ["Create", "Read", "Update", "Delete", "Query"]).map
    fun out => out ++ reportErrors state.Errors ++
      [Line.timeElapsed (rt.sub (mapGet state.Events "Finished" 0)
                                (mapGet state.Events "Started" 0))]

/-! ## Derived notions used in the statements -/

/-- Whether a kind is enabled: its percentage is positive. -/
def enabled (config : Config) : Kind → Bool
  | Kind.Create => decide (config.CreatePercentage > 0)
  | Kind.Read => decide (config.ReadPercentage > 0)
  | Kind.Update => decide (config.UpdatePercentage > 0)
  | Kind.Delete => decide (config.DeletePercentage > 0)
  | Kind.Query => decide (config.QueryPercentage > 0)

/-- The fixed order of the blocks in the loop body. -/
def kindOrder : List Kind := [Kind.Create, Kind.Read, Kind.Update, Kind.Delete, Kind.Query]

/-- The enabled kinds in block order. -/
def enabledKinds (config : Config) : List Kind := kindOrder.filter (enabled config)

/-- All five sketches exist, as after `Init`. -/
def LatencyReady (state : State) : Prop :=
  ∀ k : Kind, (state.Latency.lookup k.name).isSome = true

/-- The sketch of a kind (empty when it is nil). -/
def sketch (state : State) (k : Kind) : List Int := mapGet state.Latency k.name []

/-- The record counts passed to `GenerateExistingKey`, in call order. -/
def existingKeyArgs (trace : List Call) : List Int :=
  trace.filterMap fun c => match c with
    | Call.GenerateExistingKey r => some r
    | _ => none

/-- The record counts that blocks of the given kinds, run in that order from a
state with `records` records, pass to `GenerateExistingKey`. -/
def existingOf : Int → List Kind → List Int
  | _, [] => []
  | records, Kind.Create :: ks => existingOf (inc64 records) ks
  | records, Kind.Read :: ks => records :: existingOf records ks
  | records, Kind.Update :: ks => records :: existingOf records ks
  | records, Kind.Delete :: ks => existingOf records ks
  | records, Kind.Query :: ks => existingOf records ks

/-- Summary of a stretch of execution from `s` to `s'` in which blocks of the
kinds `ks` ran, in that order, and `sl` iterations were completed. -/
structure Ran (ks : List Kind) (sl : Nat) (s s' : Sys W) : Prop where
  operations : s'.state.Operations = inc64^[ks.length] s.state.Operations
  records : s'.state.Records = inc64^[ks.count Kind.Create] s.state.Records
  errors : s'.state.Errors = s.state.Errors
  events : s'.state.Events = s.state.Events
  ready : LatencyReady s'.state
  counts : ∀ k : Kind, count s'.state.Latency k.name
    = (count s.state.Latency k.name).map (· + ks.count k)
  calls : dbKinds s'.trace = dbKinds s.trace ++ ks
  existing : existingKeyArgs s'.trace
    = existingKeyArgs s.trace ++ existingOf s.state.Records ks
  slept : sleeps s'.trace = sleeps s.trace + sl

/-- The loop never leaves: whatever the bound on iterations, it is exhausted. -/
def NeverReturns (env : Env W V Q) (config : Config) (s : Sys W) : Prop :=
  ∀ fuel : Nat, MeasureLatency env config fuel s = Exec.outOfFuel

/-- Quotient rounded up; the number of iterations a target of `a` operations
takes at `b` operations an iteration. -/
def ceilDiv (a b : Nat) : Nat := (a + b - 1) / b

/-- The largest `int64`. -/
def maxInt64 : Int := 9223372036854775807

/-! ## Collaborators that record the calls they receive -/

/-- The collaborators of `env`, each of which also writes the call it receives,
with the arguments it is given, at the end of a log carried next to the world.
The log is written by the callee: a block that does not call the database or
the workload leaves it as it is.  Clock reads are not logged, sleeps are. -/
def recording (env : Env W V Q) : Env (W × List Call) V Q where
  database :=
    { Create := fun key value w =>
        ((env.database.Create key value w.1).1,
         ((env.database.Create key value w.1).2, w.2 ++ [Call.Create key]))
      Read := fun key w =>
        ((env.database.Read key w.1).1,
         ((env.database.Read key w.1).2, w.2 ++ [Call.Read key]))
      Update := fun key value w =>
        ((env.database.Update key value w.1).1,
         ((env.database.Update key value w.1).2, w.2 ++ [Call.Update key]))
      Delete := fun key w =>
        ((env.database.Delete key w.1).1,
         ((env.database.Delete key w.1).2, w.2 ++ [Call.Delete key]))
      Query := fun field value limit w =>
        ((env.database.Query field value limit w.1).1,
         ((env.database.Query field value limit w.1).2,
          w.2 ++ [Call.Query field limit])) }
  workload :=
    { GenerateNewKey := fun records w =>
        ((env.workload.GenerateNewKey records w.1).1,
         ((env.workload.GenerateNewKey records w.1).2,
          w.2 ++ [Call.GenerateNewKey records]))
      GenerateExistingKey := fun records w =>
        ((env.workload.GenerateExistingKey records w.1).1,
         ((env.workload.GenerateExistingKey records w.1).2,
          w.2 ++ [Call.GenerateExistingKey records]))
      GenerateKeyForRemoval := fun w =>
        ((env.workload.GenerateKeyForRemoval w.1).1,
         ((env.workload.GenerateKeyForRemoval w.1).2,
          w.2 ++ [Call.GenerateKeyForRemoval]))
      GenerateValue := fun key fields size w =>
        ((env.workload.GenerateValue key fields size w.1).1,
         ((env.workload.GenerateValue key fields size w.1).2,
          w.2 ++ [Call.GenerateValue key]))
      GenerateQuery := fun fields records w =>
        ((env.workload.GenerateQuery fields records w.1).1,
         ((env.workload.GenerateQuery fields records w.1).2,
          w.2 ++ [Call.GenerateQuery records])) }
  runtime :=
    { now := fun w => ((env.runtime.now w.1).1, ((env.runtime.now w.1).2, w.2))
      sleep := fun duration w => (env.runtime.sleep duration w.1, w.2 ++ [Call.Sleep duration])
      sub := env.runtime.sub
      percentile := env.runtime.percentile
      mean := env.runtime.mean }

/-- The calls the recording collaborators have received so far. -/
def Sys.log (s : Sys (W × List Call)) : List Call := s.world.2

/-! ## A concrete environment for examples -/

/-- A workload with fixed keys; the world is a counter of external calls. -/
def demoWorkload : Workload Nat Nat Nat where
  GenerateNewKey := fun _ w => ("new", w + 1)
  GenerateExistingKey := fun _ w => ("old", w + 1)
  GenerateKeyForRemoval := fun w => ("gone", w + 1)
  GenerateValue := fun _ _ size w => (size.toNat, w + 1)
  GenerateQuery := fun _ records w => (("field", 0, records), w + 1)

/-- A database whose calls fail whenever the call counter is odd. -/
def demoDatabase : Database Nat Nat Nat where
  Create := fun _ _ w => (w % 2 == 0, w + 1)
  Read := fun _ w => (w % 2 == 0, w + 1)
  Update := fun _ _ w => (w % 2 == 0, w + 1)
  Delete := fun _ w => (w % 2 == 0, w + 1)
  Query := fun _ _ _ w => (w % 2 == 0, w + 1)

/-- A clock that reads the call counter; sketches answer with their first sample. -/
def demoRuntime : Runtime Nat where
  now := fun w => (w, w + 1)
  sleep := fun _ w => w + 1
  sub := fun a b => a - b
  percentile := fun stats _ => stats.headD 0
  mean := fun stats => stats.headD 0

/-- The three collaborators above. -/
def demoEnv : Env Nat Nat Nat :=
  { database := demoDatabase, workload := demoWorkload, runtime := demoRuntime }

/-- A run about to start on `State{}` after `Init()`. -/
def demoStart : Sys Nat := { state := State.zero.Init, world := 0, trace := [] }

/-- A run about to start on `State{}` after `Init()`, with recording
collaborators and an empty log. -/
def demoRecStart : Sys (Nat × List Call) :=
  { state := State.zero.Init, world := (0, []), trace := [] }

/-- A configuration with the given target and percentages, one indexable field
and `ValueSize = 100`. -/
def demoConfig (operations create read update delete query : Int) : Config :=
  { Operations := operations, CreatePercentage := create, ReadPercentage := read,
    UpdatePercentage := update, DeletePercentage := delete, QueryPercentage := query,
    IndexableFields := ["city"], ValueSize := 100 }

/-- A state as a finished run leaves it, with the two events set by the
coordinator: three samples each for Create, Read and Query. -/
def demoFinal : State :=
  { Operations := 9, Records := 3, Errors := [],
    Events := [("Started", 100), ("Finished", 160)],
    Latency := [("Create", [2, 2, 2]), ("Read", [3, 3, 3]), ("Update", []),
                ("Delete", []), ("Query", [4, 4, 4])] }

/-! ## Arithmetic of `int64` -/

theorem wrap64_of_inRange {x : Int} (h : InRange64 x) : wrap64 x = x := by
  unfold InRange64 at h
  unfold wrap64
  omega

theorem wrap64_inRange (x : Int) : InRange64 (wrap64 x) := by
  unfold InRange64 wrap64
  omega

theorem wrap64_add_left (a b : Int) : wrap64 (wrap64 a + b) = wrap64 (a + b) := by
  unfold wrap64
  omega

theorem inc64_inRange (x : Int) : InRange64 (inc64 x) := wrap64_inRange _

theorem inc64_iterate_wrap (n : Nat) (x : Int) (h : InRange64 x) :
    inc64^[n] x = wrap64 (x + n) := by
  induction n with
  | zero => simp [wrap64_of_inRange h]
  | succ n ih =>
    rw [Function.iterate_succ_apply', ih]
    unfold inc64
    rw [wrap64_add_left]
    push_cast
    ring_nf

theorem inc64_iterate_exact (n : Nat) (x : Int) (h : InRange64 x)
    (hn : x + n < 9223372036854775808) : inc64^[n] x = x + n := by
  rw [inc64_iterate_wrap n x h]
  apply wrap64_of_inRange
  unfold InRange64 at *
  omega

theorem inc64_iterate_inRange (n : Nat) (x : Int) (h : InRange64 x) :
    InRange64 (inc64^[n] x) := by
  rw [inc64_iterate_wrap n x h]
  exact wrap64_inRange _

/-! ## Sketches -/

theorem lookup_map_append (l : List (String × List Int)) (op k : String) (x : Int) :
    (l.map fun e => if e.1 == op then (e.1, e.2 ++ [x]) else e).lookup k
      = if k = op then (l.lookup k).map (· ++ [x]) else l.lookup k := by
  induction l with
  | nil => simp
  | cons e l ih =>
    obtain ⟨a, b⟩ := e
    rw [List.map_cons]
    by_cases ho : a = op
    · have ho' : (a == op) = true := by simpa using ho
      simp only [ho', if_true]
      rw [List.lookup_cons, List.lookup_cons, ih]
      cases hk : (k == a) with
      | true =>
        have : k = op := by rw [← ho]; simpa using hk
        simp [this]
      | false => simp
    · have ho' : (a == op) = false := by simpa using ho
      simp only [ho', Bool.false_eq_true, if_false]
      rw [List.lookup_cons, List.lookup_cons, ih]
      cases hk : (k == a) with
      | true =>
        have hka : k = a := by simpa using hk
        have : ¬ k = op := by rw [hka]; exact ho
        simp [this]
      | false => simp

theorem addSample_some {lat : List (String × List Int)} {op : String} (x : Int)
    (h : (lat.lookup op).isSome = true) :
    addSample lat op x
      = some (lat.map fun e => if e.1 == op then (e.1, e.2 ++ [x]) else e) := by
  unfold addSample
  cases hl : lat.lookup op with
  | none => simp [hl] at h
  | some v => rfl

theorem count_update (lat : List (String × List Int)) (op k : String) (x : Int) :
    count (lat.map fun e => if e.1 == op then (e.1, e.2 ++ [x]) else e) k
      = (count lat k).map (· + if k = op then 1 else 0) := by
  unfold count
  rw [lookup_map_append]
  by_cases h : k = op
  · simp [h, Function.comp_def]
  · simp only [h, if_false, Option.map_map]
    congr 1

theorem kind_name_inj (a b : Kind) : a.name = b.name ↔ a = b := by
  cases a <;> cases b <;> decide

/-! ## Composing stretches of execution -/

theorem existingOf_append (a b : List Kind) (r : Int) :
    existingOf r (a ++ b) = existingOf r a ++ existingOf (inc64^[a.count Kind.Create] r) b := by
  induction a generalizing r with
  | nil => simp [existingOf]
  | cons k a ih =>
    cases k <;> simp [existingOf, ih, List.count_cons, Function.iterate_succ_apply]

theorem Ran.refl {s : Sys W} (h : LatencyReady s.state) : Ran [] 0 s s where
  operations := rfl
  records := rfl
  errors := rfl
  events := rfl
  ready := h
  counts := by intro k; cases count s.state.Latency k.name <;> simp
  calls := by simp
  existing := by simp [existingOf]
  slept := rfl

theorem Ran.trans {a b : List Kind} {m n : Nat} {s s1 s2 : Sys W}
    (h1 : Ran a m s s1) (h2 : Ran b n s1 s2) : Ran (a ++ b) (m + n) s s2 where
  operations := by
    rw [h2.operations, h1.operations, ← Function.iterate_add_apply, List.length_append,
      Nat.add_comm]
  records := by
    rw [h2.records, h1.records, ← Function.iterate_add_apply, List.count_append,
      Nat.add_comm]
  errors := by rw [h2.errors, h1.errors]
  events := by rw [h2.events, h1.events]
  ready := h2.ready
  counts := by
    intro k
    rw [h2.counts, h1.counts, Option.map_map, List.count_append]
    congr 1
    funext x
    simp [Nat.add_assoc]
  calls := by rw [h2.calls, h1.calls, List.append_assoc]
  existing := by
    rw [h2.existing, h1.existing, h1.records, existingOf_append, List.append_assoc]
  slept := by rw [h2.slept, h1.slept, Nat.add_assoc]

/-! ## The five blocks and the loop body -/

theorem ready_update {st : State} (h : LatencyReady st) (op : String) (x : Int)
    (k : Kind) :
    ((st.Latency.map fun e => if e.1 == op then (e.1, e.2 ++ [x]) else e).lookup
      k.name).isSome = true := by
  rw [lookup_map_append]
  have := h k
  split_ifs <;> simp [this]

/-- Adding a sample to an existing sketch keeps all five sketches in place, so
every state reached from `Init()` by adding samples holds them. -/
theorem addSample_ready {st : State} (h : LatencyReady st) {op : String} {x : Int}
    {lat : List (String × List Int)} (ha : addSample st.Latency op x = some lat) :
    LatencyReady { st with Latency := lat } := by
  intro k
  unfold addSample at ha
  cases hl : st.Latency.lookup op with
  | none => simp [hl] at ha
  | some v =>
    simp only [hl, Option.some.injEq] at ha
    rw [← ha]
    exact ready_update h op x k

theorem createStep_ran (env : Env W V Q) (config : Config) {s : Sys W}
    (h : LatencyReady s.state) :
    ∃ s', createStep env config s = some s' ∧
      Ran (if config.CreatePercentage > 0 then [Kind.Create] else []) 0 s s' := by
  unfold createStep
  split_ifs with hc
  · have hC : (s.state.Latency.lookup "Create").isSome = true := h Kind.Create
    simp only [addSample_some _ hC, Option.map_some']
    refine ⟨_, rfl, ?_⟩
    constructor
    · rfl
    · rfl
    · rfl
    · rfl
    · intro k; exact ready_update h _ _ k
    · intro k
      show count (List.map _ _) _ = _
      rw [count_update]
      congr 1
      funext x
      cases k <;> simp [Kind.name]
    · simp [dbKinds, List.filterMap_append, Call.dbKind]
    · simp [existingKeyArgs, List.filterMap_append, existingOf]
    · simp [sleeps, List.filter_append]
  · exact ⟨s, rfl, Ran.refl h⟩

theorem readStep_ran (env : Env W V Q) (config : Config) {s : Sys W}
    (h : LatencyReady s.state) :
    ∃ s', readStep env config s = some s' ∧
      Ran (if config.ReadPercentage > 0 then [Kind.Read] else []) 0 s s' := by
  unfold readStep
  split_ifs with hc
  · have hC : (s.state.Latency.lookup "Read").isSome = true := h Kind.Read
    simp only [addSample_some _ hC, Option.map_some']
    refine ⟨_, rfl, ?_⟩
    constructor
    · rfl
    · rfl
    · rfl
    · rfl
    · intro k; exact ready_update h _ _ k
    · intro k
      show count (List.map _ _) _ = _
      rw [count_update]
      congr 1
      funext x
      cases k <;> simp [Kind.name]
    · simp [dbKinds, List.filterMap_append, Call.dbKind]
    · simp [existingKeyArgs, List.filterMap_append, existingOf]
    · simp [sleeps, List.filter_append]
  · exact ⟨s, rfl, Ran.refl h⟩

theorem updateStep_ran (env : Env W V Q) (config : Config) {s : Sys W}
    (h : LatencyReady s.state) :
    ∃ s', updateStep env config s = some s' ∧
      Ran (if config.UpdatePercentage > 0 then [Kind.Update] else []) 0 s s' := by
  unfold updateStep
  split_ifs with hc
  · have hC : (s.state.Latency.lookup "Update").isSome = true := h Kind.Update
    simp only [addSample_some _ hC, Option.map_some']
    refine ⟨_, rfl, ?_⟩
    constructor
    · rfl
    · rfl
    · rfl
    · rfl
    · intro k; exact ready_update h _ _ k
    · intro k
      show count (List.map _ _) _ = _
      rw [count_update]
      congr 1
      funext x
      cases k <;> simp [Kind.name]
    · simp [dbKinds, List.filterMap_append, Call.dbKind]
    · simp [existingKeyArgs, List.filterMap_append, existingOf]
    · simp [sleeps, List.filter_append]
  · exact ⟨s, rfl, Ran.refl h⟩

theorem deleteStep_ran (env : Env W V Q) (config : Config) {s : Sys W}
    (h : LatencyReady s.state) :
    ∃ s', deleteStep env config s = some s' ∧
      Ran (if config.DeletePercentage > 0 then [Kind.Delete] else []) 0 s s' := by
  unfold deleteStep
  split_ifs with hc
  · have hC : (s.state.Latency.lookup "Delete").isSome = true := h Kind.Delete
    simp only [addSample_some _ hC, Option.map_some']
    refine ⟨_, rfl, ?_⟩
    constructor
    · rfl
    · rfl
    · rfl
    · rfl
    · intro k; exact ready_update h _ _ k
    · intro k
      show count (List.map _ _) _ = _
      rw [count_update]
      congr 1
      funext x
      cases k <;> simp [Kind.name]
    · simp [dbKinds, List.filterMap_append, Call.dbKind]
    · simp [existingKeyArgs, List.filterMap_append, existingOf]
    · simp [sleeps, List.filter_append]
  · exact ⟨s, rfl, Ran.refl h⟩

theorem queryStep_ran (env : Env W V Q) (config : Config) {s : Sys W}
    (h : LatencyReady s.state) :
    ∃ s', queryStep env config s = some s' ∧
      Ran (if config.QueryPercentage > 0 then [Kind.Query] else []) 0 s s' := by
  unfold queryStep
  split_ifs with hc
  · have hC : (s.state.Latency.lookup "Query").isSome = true := h Kind.Query
    simp only [addSample_some _ hC, Option.map_some']
    refine ⟨_, rfl, ?_⟩
    constructor
    · rfl
    · rfl
    · rfl
    · rfl
    · intro k; exact ready_update h _ _ k
    · intro k
      show count (List.map _ _) _ = _
      rw [count_update]
      congr 1
      funext x
      cases k <;> simp [Kind.name]
    · simp [dbKinds, List.filterMap_append, Call.dbKind]
    · simp [existingKeyArgs, List.filterMap_append, existingOf]
    · simp [sleeps, List.filter_append]
  · exact ⟨s, rfl, Ran.refl h⟩

theorem sleepStep_ran (env : Env W V Q) {s : Sys W} (h : LatencyReady s.state) :
    Ran [] 1 s (sleepStep env s) where
  operations := rfl
  records := rfl
  errors := rfl
  events := rfl
  ready := h
  counts := by intro k; show count s.state.Latency _ = _; cases count s.state.Latency k.name <;> simp
  calls := by simp [sleepStep, dbKinds, List.filterMap_append, Call.dbKind]
  existing := by simp [sleepStep, existingKeyArgs, List.filterMap_append, existingOf]
  slept := by simp [sleepStep, sleeps, List.filter_append]

theorem enabledKinds_eq (config : Config) :
    enabledKinds config
      = (if config.CreatePercentage > 0 then [Kind.Create] else [])
        ++ (if config.ReadPercentage > 0 then [Kind.Read] else [])
        ++ (if config.UpdatePercentage > 0 then [Kind.Update] else [])
        ++ (if config.DeletePercentage > 0 then [Kind.Delete] else [])
        ++ (if config.QueryPercentage > 0 then [Kind.Query] else []) := by
  unfold enabledKinds kindOrder
  simp only [List.filter, enabled]
  by_cases h1 : config.CreatePercentage > 0 <;> by_cases h2 : config.ReadPercentage > 0 <;>
  by_cases h3 : config.UpdatePercentage > 0 <;> by_cases h4 : config.DeletePercentage > 0 <;>
  by_cases h5 : config.QueryPercentage > 0 <;> simp [h1, h2, h3, h4, h5]

/-- One pass through the loop body from a state with all five sketches succeeds
and runs exactly the enabled blocks, in block order, then sleeps once. -/
theorem iteration_ran (env : Env W V Q) (config : Config) {s : Sys W}
    (h : LatencyReady s.state) :
    ∃ s', iteration env config s = some s' ∧ Ran (enabledKinds config) 1 s s' := by
  obtain ⟨s1, e1, r1⟩ := createStep_ran env config h
  obtain ⟨s2, e2, r2⟩ := readStep_ran env config r1.ready
  obtain ⟨s3, e3, r3⟩ := updateStep_ran env config r2.ready
  obtain ⟨s4, e4, r4⟩ := deleteStep_ran env config r3.ready
  obtain ⟨s5, e5, r5⟩ := queryStep_ran env config r4.ready
  refine ⟨sleepStep env s5, ?_, ?_⟩
  · simp [iteration, e1, e2, e3, e4, e5]
  · have := ((((r1.trans r2).trans r3).trans r4).trans r5).trans (sleepStep_ran env r5.ready)
    rw [enabledKinds_eq]
    simpa using this

/-- The kinds run by `n` passes through the loop body. -/
theorem iterations_ran (env : Env W V Q) (config : Config) (n : Nat) {s : Sys W}
    (h : LatencyReady s.state) :
    ∃ s', iterations env config n s = some s' ∧
      Ran (List.replicate n (enabledKinds config)).flatten n s s' := by
  induction n generalizing s with
  | zero => exact ⟨s, rfl, by simpa using Ran.refl h⟩
  | succ n ih =>
    obtain ⟨s1, e1, r1⟩ := iteration_ran env config h
    obtain ⟨s2, e2, r2⟩ := ih r1.ready
    refine ⟨s2, ?_, ?_⟩
    · simp [iterations, e1, e2]
    · have := r1.trans r2
      rw [List.replicate_succ, List.flatten_cons, Nat.add_comm n 1]
      exact this

/-! ## The loop -/

theorem length_repeat (n : Nat) (ks : List Kind) :
    (List.replicate n ks).flatten.length = n * ks.length := by
  induction n with
  | zero => simp
  | succ n ih => rw [List.replicate_succ, List.flatten_cons, List.length_append, ih]; ring

theorem count_repeat (n : Nat) (ks : List Kind) (k : Kind) :
    (List.replicate n ks).flatten.count k = n * ks.count k := by
  induction n with
  | zero => simp
  | succ n ih => rw [List.replicate_succ, List.flatten_cons, List.count_append, ih]; ring

theorem measure_of_guard_false (env : Env W V Q) (config : Config) (fuel : Nat) {s : Sys W}
    (h : config.Operations ≤ s.state.Operations) :
    MeasureLatency env config fuel s = Exec.returned s := by
  have : ¬ s.state.Operations < config.Operations := not_lt.2 h
  cases fuel <;> simp [MeasureLatency, this]

theorem measure_step (env : Env W V Q) (config : Config) (fuel : Nat) {s s1 : Sys W}
    (h : s.state.Operations < config.Operations) (e : iteration env config s = some s1) :
    MeasureLatency env config (fuel + 1) s = MeasureLatency env config fuel s1 := by
  simp [MeasureLatency, h, e]

/-- When the loop returns, its guard is false. -/
theorem measure_returned_guard (env : Env W V Q) (config : Config) (fuel : Nat) :
    ∀ {s s' : Sys W}, MeasureLatency env config fuel s = Exec.returned s' →
      config.Operations ≤ s'.state.Operations := by
  induction fuel with
  | zero =>
    intro s s' h
    by_cases hg : s.state.Operations < config.Operations
    · simp [MeasureLatency, hg] at h
    · simp only [MeasureLatency, hg, if_false, Exec.returned.injEq] at h
      rw [← h]; exact not_lt.1 hg
  | succ fuel ih =>
    intro s s' h
    by_cases hg : s.state.Operations < config.Operations
    · cases e : iteration env config s with
      | none => simp [MeasureLatency, hg, e] at h
      | some s1 =>
        rw [measure_step env config fuel hg e] at h
        exact ih h
    · simp only [MeasureLatency, hg, if_false, Exec.returned.injEq] at h
      rw [← h]; exact not_lt.1 hg

/-- A returned run is a whole number of passes through the loop body. -/
theorem measure_returned_iterations (env : Env W V Q) (config : Config) (fuel : Nat) :
    ∀ {s s' : Sys W}, MeasureLatency env config fuel s = Exec.returned s' →
      ∃ n, n ≤ fuel ∧ iterations env config n s = some s' := by
  induction fuel with
  | zero =>
    intro s s' h
    by_cases hg : s.state.Operations < config.Operations
    · simp [MeasureLatency, hg] at h
    · simp only [MeasureLatency, hg, if_false, Exec.returned.injEq] at h
      exact ⟨0, le_refl _, by rw [← h]; rfl⟩
  | succ fuel ih =>
    intro s s' h
    by_cases hg : s.state.Operations < config.Operations
    · cases e : iteration env config s with
      | none => simp [MeasureLatency, hg, e] at h
      | some s1 =>
        rw [measure_step env config fuel hg e] at h
        obtain ⟨n, hn, hi⟩ := ih h
        exact ⟨n + 1, by omega, by simp [iterations, e, hi]⟩
    · simp only [MeasureLatency, hg, if_false, Exec.returned.injEq] at h
      exact ⟨0, by omega, by rw [← h]; rfl⟩

/-- The loop returns after exactly `n` iterations when the counter, advancing by
the number of enabled kinds without wrapping, first reaches the target then. -/
theorem measure_exact (env : Env W V Q) (config : Config) (n : Nat) :
    ∀ {s : Sys W} (fuel : Nat), LatencyReady s.state → InRange64 s.state.Operations →
      n ≤ fuel →
      (∀ i : Nat, i < n →
        s.state.Operations + i * (enabledKinds config).length < config.Operations) →
      config.Operations ≤ s.state.Operations + n * (enabledKinds config).length →
      s.state.Operations + n * (enabledKinds config).length < 9223372036854775808 →
      ∃ s', MeasureLatency env config fuel s = Exec.returned s' ∧
        iterations env config n s = some s' := by
  induction n with
  | zero =>
    intro s fuel _ _ _ _ hT _
    exact ⟨s, measure_of_guard_false env config fuel (by simpa using hT), rfl⟩
  | succ n ih =>
    intro s fuel hr hin hf hlt hT hov
    obtain ⟨f, rfl⟩ : ∃ f, fuel = f + 1 := ⟨fuel - 1, by omega⟩
    have hg : s.state.Operations < config.Operations := by
      simpa using hlt 0 (Nat.succ_pos n)
    obtain ⟨s1, e1, r1⟩ := iteration_ran env config hr
    have hk : (0 : Int) ≤ ((enabledKinds config).length : Int) := Int.natCast_nonneg _
    have hnk : (0 : Int) ≤ (n : Int) * ((enabledKinds config).length : Int) :=
      mul_nonneg (Int.natCast_nonneg _) hk
    have hexp : ((n + 1 : Nat) : Int) * ((enabledKinds config).length : Int)
        = (n : Int) * ((enabledKinds config).length : Int)
          + ((enabledKinds config).length : Int) := by push_cast; ring
    rw [hexp] at hT hov
    have hops : s1.state.Operations
        = s.state.Operations + ((enabledKinds config).length : Int) := by
      rw [r1.operations]
      exact inc64_iterate_exact _ _ hin (by linarith)
    have hin1 : InRange64 s1.state.Operations := by
      rw [r1.operations]; exact inc64_iterate_inRange _ _ hin
    obtain ⟨s2, e2, i2⟩ := ih (s := s1) f r1.ready hin1 (by omega)
      (by
        intro i hi
        have := hlt (i + 1) (by omega)
        have hexp2 : ((i + 1 : Nat) : Int) * ((enabledKinds config).length : Int)
            = (i : Int) * ((enabledKinds config).length : Int)
              + ((enabledKinds config).length : Int) := by push_cast; ring
        rw [hexp2] at this
        rw [hops]; linarith)
      (by rw [hops]; linarith)
      (by rw [hops]; linarith)
    refine ⟨s2, ?_, ?_⟩
    · rw [measure_step env config f hg e1]; exact e2
    · simp [iterations, e1, i2]

/-- With fewer iterations allowed than the counter needs, the bound is hit. -/
theorem measure_short (env : Env W V Q) (config : Config) (fuel : Nat) :
    ∀ {s : Sys W}, LatencyReady s.state → InRange64 s.state.Operations →
      (∀ i : Nat, i ≤ fuel →
        s.state.Operations + i * (enabledKinds config).length < config.Operations) →
      s.state.Operations + fuel * (enabledKinds config).length < 9223372036854775808 →
      MeasureLatency env config fuel s = Exec.outOfFuel := by
  induction fuel with
  | zero =>
    intro s _ _ hlt _
    have hg : s.state.Operations < config.Operations := by simpa using hlt 0 (le_refl _)
    simp [MeasureLatency, hg]
  | succ f ih =>
    intro s hr hin hlt hov
    have hg : s.state.Operations < config.Operations := by simpa using hlt 0 (by omega)
    obtain ⟨s1, e1, r1⟩ := iteration_ran env config hr
    have hk : (0 : Int) ≤ ((enabledKinds config).length : Int) := Int.natCast_nonneg _
    have hnk : (0 : Int) ≤ (f : Int) * ((enabledKinds config).length : Int) :=
      mul_nonneg (Int.natCast_nonneg _) hk
    have hexp : ((f + 1 : Nat) : Int) * ((enabledKinds config).length : Int)
        = (f : Int) * ((enabledKinds config).length : Int)
          + ((enabledKinds config).length : Int) := by push_cast; ring
    rw [hexp] at hov
    have hops : s1.state.Operations
        = s.state.Operations + ((enabledKinds config).length : Int) := by
      rw [r1.operations]
      exact inc64_iterate_exact _ _ hin (by linarith)
    have hin1 : InRange64 s1.state.Operations := by
      rw [r1.operations]; exact inc64_iterate_inRange _ _ hin
    rw [measure_step env config f hg e1]
    apply ih r1.ready hin1
    · intro i hi
      have := hlt (i + 1) (by omega)
      have hexp2 : ((i + 1 : Nat) : Int) * ((enabledKinds config).length : Int)
          = (i : Int) * ((enabledKinds config).length : Int)
            + ((enabledKinds config).length : Int) := by push_cast; ring
      rw [hexp2] at this
      rw [hops]; linarith
    · rw [hops]; linarith

/-! ## Runs from a freshly initialised state -/

theorem init_ready (s0 : State) : LatencyReady s0.Init := by
  intro k; cases k <;> rfl

theorem init_count (s0 : State) (k : Kind) : count s0.Init.Latency k.name = some 0 := by
  cases k <;> rfl

/-! ## Termination and overshoot -/

theorem ceilDiv_spec (a k : Nat) (hk : 1 ≤ k) :
    a ≤ ceilDiv a k * k ∧ ceilDiv a k * k < a + k ∧ ∀ i, i < ceilDiv a k → i * k < a := by
  unfold ceilDiv
  have h1 := Nat.div_add_mod (a + k - 1) k
  have h2 := Nat.mod_lt (a + k - 1) (show k > 0 by omega)
  have h3 : k * ((a + k - 1) / k) = (a + k - 1) / k * k := Nat.mul_comm _ _
  refine ⟨by omega, by omega, ?_⟩
  intro i hi
  have h4 : (i + 1) * k ≤ (a + k - 1) / k * k := Nat.mul_le_mul_right k hi
  rw [Nat.succ_mul] at h4
  omega

theorem ceilDiv_exact_iff (a k : Nat) (hk : 1 ≤ k) : ceilDiv a k * k = a ↔ k ∣ a := by
  obtain ⟨h1, h2, _⟩ := ceilDiv_spec a k hk
  constructor
  · intro h; exact ⟨ceilDiv a k, by rw [Nat.mul_comm]; exact h.symm⟩
  · intro h
    have hd : k ∣ ceilDiv a k * k - a := Nat.dvd_sub' (Nat.dvd_mul_left _ _) h
    have := Nat.eq_zero_of_dvd_of_lt hd (by omega)
    omega

theorem enabledKinds_length_le (config : Config) : (enabledKinds config).length ≤ 5 := by
  unfold enabledKinds
  exact (List.length_filter_le _ _).trans (by simp [kindOrder])

/-- A loop whose guard holds on an invariant that every iteration keeps never
returns. -/
theorem neverReturns_of_invariant (env : Env W V Q) (config : Config) (I : Sys W → Prop)
    (hg : ∀ s, I s → s.state.Operations < config.Operations)
    (hstep : ∀ s, I s → ∃ s1, iteration env config s = some s1 ∧ I s1)
    (s : Sys W) (h : I s) : NeverReturns env config s := by
  intro fuel
  induction fuel generalizing s with
  | zero => simp [MeasureLatency, hg s h]
  | succ f ih =>
    obtain ⟨s1, e1, h1⟩ := hstep s h
    rw [measure_step env config f (hg s h) e1]
    exact ih s1 h1

/-- With no kind enabled and the target not reached, the loop spins. -/
theorem neverReturns_idle (env : Env W V Q) (config : Config) (s : Sys W)
    (hks : enabledKinds config = []) (hr : LatencyReady s.state)
    (hg : s.state.Operations < config.Operations) : NeverReturns env config s := by
  apply neverReturns_of_invariant env config
    (fun t => LatencyReady t.state ∧ t.state.Operations < config.Operations)
  · intro t ht; exact ht.2
  · intro t ht
    obtain ⟨t1, e1, r1⟩ := iteration_ran env config ht.1
    refine ⟨t1, e1, r1.ready, ?_⟩
    rw [r1.operations, hks]
    exact ht.2
  · exact ⟨hr, hg⟩

/-- With two kinds enabled and the largest target, an even counter wraps around
before it can reach the odd target. -/
theorem neverReturns_wrap (env : Env W V Q) (config : Config) (s : Sys W)
    (hks : (enabledKinds config).length = 2) (hT : config.Operations = maxInt64)
    (hr : LatencyReady s.state) (hin : InRange64 s.state.Operations)
    (heven : s.state.Operations % 2 = 0) : NeverReturns env config s := by
  apply neverReturns_of_invariant env config
    (fun t => LatencyReady t.state ∧ InRange64 t.state.Operations
      ∧ t.state.Operations % 2 = 0)
  · intro t ht
    obtain ⟨_, h2, h3⟩ := ht
    rw [hT]
    unfold InRange64 at h2
    unfold maxInt64
    omega
  · intro t ht
    obtain ⟨h1, h2, h3⟩ := ht
    obtain ⟨t1, e1, r1⟩ := iteration_ran env config h1
    refine ⟨t1, e1, r1.ready, ?_, ?_⟩
    · rw [r1.operations]; exact inc64_iterate_inRange _ _ h2
    · rw [r1.operations, hks, inc64_iterate_wrap _ _ h2]
      unfold wrap64
      unfold InRange64 at h2
      push_cast
      omega
  · exact ⟨hr, hin, heven⟩

/-- C2, counterexample: with every percentage 0 and a target of 1 the loop never
returns; so it does with Create and Read enabled and the largest `int64` target,
where the counter wraps around from `2^63 - 2` to `-2^63`. -/
theorem c2_loop_can_run_forever :
    NeverReturns demoEnv (demoConfig 1 0 0 0 0 0) demoStart ∧
    NeverReturns demoEnv (demoConfig maxInt64 50 50 0 0 0) demoStart :=
  ⟨neverReturns_idle demoEnv _ demoStart (by decide) (init_ready _) (by decide),
   neverReturns_wrap demoEnv _ demoStart (by decide) rfl (init_ready _) (by decide)
     (by decide)⟩

/-- C2, amended: from a state with all five sketches, when at least one
percentage is positive and the target plus the number of enabled kinds does not
exceed `2^63` (so the counter cannot wrap), the loop returns once it is given
enough iterations, and on return `Operations >= Config.Operations`. -/
theorem c2_terminates_when_enabled (env : Env W V Q) (config : Config) (s : Sys W)
    (hr : LatencyReady s.state) (hin : InRange64 s.state.Operations)
    (hk : 1 ≤ (enabledKinds config).length)
    (hov : config.Operations + (enabledKinds config).length ≤ 9223372036854775808) :
    ∃ n : Nat, ∀ fuel : Nat, n ≤ fuel →
      ∃ s', MeasureLatency env config fuel s = Exec.returned s' ∧
        config.Operations ≤ s'.state.Operations := by
  by_cases hg : s.state.Operations < config.Operations
  · obtain ⟨a, ha⟩ : ∃ a : Nat, config.Operations - s.state.Operations = a :=
      ⟨(config.Operations - s.state.Operations).toNat, by rw [Int.toNat_of_nonneg]; omega⟩
    obtain ⟨h1, h2, h3⟩ := ceilDiv_spec a _ hk
    refine ⟨ceilDiv a (enabledKinds config).length, fun fuel hf => ?_⟩
    have h1' : (a : Int) ≤ (ceilDiv a (enabledKinds config).length : Int)
        * ((enabledKinds config).length : Int) := by exact_mod_cast h1
    have h2' : (ceilDiv a (enabledKinds config).length : Int)
        * ((enabledKinds config).length : Int) < (a : Int)
          + ((enabledKinds config).length : Int) := by exact_mod_cast h2
    obtain ⟨s', hrun, _⟩ := measure_exact env config _ fuel hr hin hf
      (by
        intro i hi
        have : ((i * (enabledKinds config).length : Nat) : Int) < (a : Int) := by
          exact_mod_cast h3 i hi
        push_cast at this
        linarith)
      (by linarith) (by linarith)
    exact ⟨s', hrun, measure_returned_guard env config fuel hrun⟩
  · refine ⟨0, fun fuel _ => ⟨s, ?_, not_lt.1 hg⟩⟩
    exact measure_of_guard_false env config fuel (not_lt.1 hg)

theorem c2_terminates_when_enabled_witness :
    ∃ n : Nat, ∀ fuel : Nat, n ≤ fuel →
      ∃ s', MeasureLatency demoEnv (demoConfig 7 1 1 0 0 1) fuel demoStart
          = Exec.returned s' ∧
        (demoConfig 7 1 1 0 0 1).Operations ≤ s'.state.Operations :=
  c2_terminates_when_enabled demoEnv (demoConfig 7 1 1 0 0 1) demoStart (init_ready _)
    (by decide) (by decide) (by decide)

/-- C10, counterexample: with Create and Read enabled (`k = 2`) and the target
`T = 2^63 - 1`, the value `k * ceil(T / k) = 2^63` is not an `int64`; the counter
wraps around and the loop never returns. -/
theorem c10_wraps_at_largest_target :
    0 ≤ (demoConfig maxInt64 50 50 0 0 0).Operations ∧
    InRange64 (demoConfig maxInt64 50 50 0 0 0).Operations ∧
    (enabledKinds (demoConfig maxInt64 50 50 0 0 0)).length = 2 ∧
    demoStart.state.Operations = 0 ∧
    NeverReturns demoEnv (demoConfig maxInt64 50 50 0 0 0) demoStart :=
  ⟨by decide, by decide, by decide, rfl,
   neverReturns_wrap demoEnv _ demoStart (by decide) rfl (init_ready _) (by decide)
     (by decide)⟩

/-- C10, amended: for one worker started with `Operations = 0`, `k >= 1` enabled
kinds and a target `T >= 0` such that `k * ceil(T / k) < 2^63`, the loop runs exactly
`ceil(T / k)` iterations (with fewer allowed it is still running) and returns with
`Operations = k * ceil(T / k)`; the overshoot `Operations - T` is at least 0, less
than `k`, at most 4, and 0 exactly when `k` divides `T`. -/
theorem c10_iterations_and_overshoot (env : Env W V Q) (config : Config) (s : Sys W)
    (t : Nat) (hr : LatencyReady s.state) (hops : s.state.Operations = 0)
    (hk : 1 ≤ (enabledKinds config).length) (hT : config.Operations = t)
    (hov : ((enabledKinds config).length : Int)
      * (ceilDiv t (enabledKinds config).length : Int) < 9223372036854775808) :
    (∀ fuel : Nat, ceilDiv t (enabledKinds config).length ≤ fuel →
      ∃ s', MeasureLatency env config fuel s = Exec.returned s' ∧
        sleeps s'.trace = sleeps s.trace + ceilDiv t (enabledKinds config).length ∧
        s'.state.Operations = ((enabledKinds config).length : Int)
          * (ceilDiv t (enabledKinds config).length : Int) ∧
        0 ≤ s'.state.Operations - config.Operations ∧
        s'.state.Operations - config.Operations < (enabledKinds config).length ∧
        s'.state.Operations - config.Operations ≤ 4 ∧
        (s'.state.Operations - config.Operations = 0
          ↔ ((enabledKinds config).length : Int) ∣ config.Operations)) ∧
    (∀ fuel : Nat, fuel < ceilDiv t (enabledKinds config).length →
      MeasureLatency env config fuel s = Exec.outOfFuel) := by
  obtain ⟨h1, h2, h3⟩ := ceilDiv_spec t _ hk
  have h5 := enabledKinds_length_le config
  have hin : InRange64 s.state.Operations := by rw [hops]; unfold InRange64; omega
  set k := (enabledKinds config).length with hkdef
  set n := ceilDiv t k with hndef
  have h1' : (t : Int) ≤ (n : Int) * (k : Int) := by exact_mod_cast h1
  have h2' : (n : Int) * (k : Int) < (t : Int) + (k : Int) := by exact_mod_cast h2
  have hcomm : (k : Int) * (n : Int) = (n : Int) * (k : Int) := mul_comm _ _
  constructor
  · intro fuel hf
    obtain ⟨s', hrun, hiter⟩ := measure_exact env config n fuel hr hin hf
      (by
        intro i hi
        have : ((i * k : Nat) : Int) < (t : Int) := by exact_mod_cast h3 i hi
        push_cast at this
        rw [hops, hT]; linarith)
      (by rw [hops, hT]; linarith) (by rw [hops]; linarith)
    obtain ⟨s'', hiter', ran⟩ := iterations_ran env config n hr
    rw [hiter] at hiter'
    cases hiter'
    have hops' : s'.state.Operations = (k : Int) * (n : Int) := by
      rw [ran.operations, length_repeat, hops,
        inc64_iterate_exact _ 0 (by unfold InRange64; omega)
          (by push_cast; linarith)]
      push_cast; ring
    refine ⟨s', hrun, ran.slept, hops', ?_, ?_, ?_, ?_⟩
    · rw [hops', hT]; linarith
    · rw [hops', hT]; linarith
    · rw [hops', hT]
      have : (k : Int) ≤ 5 := by exact_mod_cast h5
      linarith
    · rw [hops', hT, hcomm]
      have := ceilDiv_exact_iff t k hk
      constructor
      · intro h
        have h' : n * k = t := by
          have : (n : Int) * (k : Int) = (t : Int) := by linarith
          exact_mod_cast this
        exact_mod_cast this.1 h'
      · intro h
        have h' : k ∣ t := by exact_mod_cast h
        have : n * k = t := this.2 h'
        have : (n : Int) * (k : Int) = (t : Int) := by exact_mod_cast this
        linarith
  · intro fuel hf
    have hfk : (fuel : Int) * (k : Int) ≤ (n : Int) * (k : Int) := by
      have : fuel * k ≤ n * k := Nat.mul_le_mul_right k (Nat.le_of_lt hf)
      exact_mod_cast this
    apply measure_short env config fuel hr hin
    · intro i hi
      have : ((i * k : Nat) : Int) < (t : Int) := by
        exact_mod_cast h3 i (by omega)
      push_cast at this
      rw [hops, hT]; linarith
    · rw [hops]; linarith

theorem c10_iterations_and_overshoot_witness :
    (∀ fuel : Nat, ceilDiv 7 (enabledKinds (demoConfig 7 1 1 0 0 1)).length ≤ fuel →
      ∃ s', MeasureLatency demoEnv (demoConfig 7 1 1 0 0 1) fuel demoStart
          = Exec.returned s' ∧
        sleeps s'.trace = sleeps demoStart.trace
          + ceilDiv 7 (enabledKinds (demoConfig 7 1 1 0 0 1)).length ∧
        s'.state.Operations = ((enabledKinds (demoConfig 7 1 1 0 0 1)).length : Int)
          * (ceilDiv 7 (enabledKinds (demoConfig 7 1 1 0 0 1)).length : Int) ∧
        0 ≤ s'.state.Operations - (demoConfig 7 1 1 0 0 1).Operations ∧
        s'.state.Operations - (demoConfig 7 1 1 0 0 1).Operations
          < (enabledKinds (demoConfig 7 1 1 0 0 1)).length ∧
        s'.state.Operations - (demoConfig 7 1 1 0 0 1).Operations ≤ 4 ∧
        (s'.state.Operations - (demoConfig 7 1 1 0 0 1).Operations = 0
          ↔ ((enabledKinds (demoConfig 7 1 1 0 0 1)).length : Int)
            ∣ (demoConfig 7 1 1 0 0 1).Operations)) ∧
    (∀ fuel : Nat, fuel < ceilDiv 7 (enabledKinds (demoConfig 7 1 1 0 0 1)).length →
      MeasureLatency demoEnv (demoConfig 7 1 1 0 0 1) fuel demoStart = Exec.outOfFuel) :=
  c10_iterations_and_overshoot demoEnv (demoConfig 7 1 1 0 0 1) demoStart 7 (init_ready _)
    rfl (by decide) rfl (by decide)

/-! ## Reads while no record exists -/

theorem existingOf_reads (r : Int) (m : Nat) :
    existingOf r (List.replicate m Kind.Read) = List.replicate m r := by
  induction m with
  | zero => rfl
  | succ m ih => rw [List.replicate_succ, existingOf, ih, List.replicate_succ]

/-! ## What the blocks leave alone, and the counters -/

theorem createStep_frame (env : Env W V Q) (config : Config) {t t' : Sys W}
    (h : createStep env config t = some t') :
    t'.state.Errors = t.state.Errors ∧ t'.state.Events = t.state.Events ∧
      t'.state.Records
        = if config.CreatePercentage > 0 then inc64 t.state.Records else t.state.Records := by
  unfold createStep at h
  split_ifs at h with hc
  · obtain ⟨lat, _, rfl⟩ := Option.map_eq_some'.1 h
    exact ⟨rfl, rfl, by rw [if_pos hc]⟩
  · cases h; exact ⟨rfl, rfl, by rw [if_neg hc]⟩

theorem readStep_frame (env : Env W V Q) (config : Config) {t t' : Sys W}
    (h : readStep env config t = some t') :
    t'.state.Errors = t.state.Errors ∧ t'.state.Events = t.state.Events ∧
      t'.state.Records = t.state.Records := by
  unfold readStep at h
  split_ifs at h with hc
  · obtain ⟨lat, _, rfl⟩ := Option.map_eq_some'.1 h
    exact ⟨rfl, rfl, rfl⟩
  · cases h; exact ⟨rfl, rfl, rfl⟩

theorem updateStep_frame (env : Env W V Q) (config : Config) {t t' : Sys W}
    (h : updateStep env config t = some t') :
    t'.state.Errors = t.state.Errors ∧ t'.state.Events = t.state.Events ∧
      t'.state.Records = t.state.Records := by
  unfold updateStep at h
  split_ifs at h with hc
  · obtain ⟨lat, _, rfl⟩ := Option.map_eq_some'.1 h
    exact ⟨rfl, rfl, rfl⟩
  · cases h; exact ⟨rfl, rfl, rfl⟩

theorem deleteStep_frame (env : Env W V Q) (config : Config) {t t' : Sys W}
    (h : deleteStep env config t = some t') :
    t'.state.Errors = t.state.Errors ∧ t'.state.Events = t.state.Events ∧
      t'.state.Records = t.state.Records := by
  unfold deleteStep at h
  split_ifs at h with hc
  · obtain ⟨lat, _, rfl⟩ := Option.map_eq_some'.1 h
    exact ⟨rfl, rfl, rfl⟩
  · cases h; exact ⟨rfl, rfl, rfl⟩

theorem queryStep_frame (env : Env W V Q) (config : Config) {t t' : Sys W}
    (h : queryStep env config t = some t') :
    t'.state.Errors = t.state.Errors ∧ t'.state.Events = t.state.Events ∧
      t'.state.Records = t.state.Records := by
  unfold queryStep at h
  split_ifs at h with hc
  · obtain ⟨lat, _, rfl⟩ := Option.map_eq_some'.1 h
    exact ⟨rfl, rfl, rfl⟩
  · cases h; exact ⟨rfl, rfl, rfl⟩

/-- One pass through the loop body leaves `Errors` and `Events` as they were,
whether or not the sketches exist. -/
theorem iteration_frame (env : Env W V Q) (config : Config) {t t' : Sys W}
    (h : iteration env config t = some t') :
    t'.state.Errors = t.state.Errors ∧ t'.state.Events = t.state.Events := by
  unfold iteration at h
  obtain ⟨t5, h5, rfl⟩ := Option.map_eq_some'.1 h
  obtain ⟨t4, h4, e5⟩ := Option.bind_eq_some.1 h5
  obtain ⟨t3, h3, e4⟩ := Option.bind_eq_some.1 h4
  obtain ⟨t2, h2, e3⟩ := Option.bind_eq_some.1 h3
  obtain ⟨t1, e1, e2⟩ := Option.bind_eq_some.1 h2
  have f1 := createStep_frame env config e1
  have f2 := readStep_frame env config e2
  have f3 := updateStep_frame env config e3
  have f4 := deleteStep_frame env config e4
  have f5 := queryStep_frame env config e5
  constructor
  · show t5.state.Errors = _
    rw [f5.1, f4.1, f3.1, f2.1, f1.1]
  · show t5.state.Events = _
    rw [f5.2.1, f4.2.1, f3.2.1, f2.2.1, f1.2.1]

theorem iterations_frame (env : Env W V Q) (config : Config) (n : Nat) :
    ∀ {t t' : Sys W}, iterations env config n t = some t' →
      t'.state.Errors = t.state.Errors ∧ t'.state.Events = t.state.Events := by
  induction n with
  | zero => intro t t' h; cases h; exact ⟨rfl, rfl⟩
  | succ n ih =>
    intro t t' h
    obtain ⟨t1, e1, e2⟩ := Option.bind_eq_some.1 h
    have f1 := iteration_frame env config e1
    have f2 := ih e2
    exact ⟨f2.1.trans f1.1, f2.2.trans f1.2⟩

/-- C4, counterexample: from a freshly initialised state with Create and Read
enabled and the largest `int64` target, after `2^62 - 1` iterations `Operations`
is `2^63 - 2`, the guard still holds, and the next iteration takes it down to
`-2^63`; after `2^63 - 1` iterations `Records` is `2^63 - 1`, the guard holds, and
the next iteration takes `Records` down to `-2^63`. -/
theorem c4_counters_wrap_around :
    (∃ s1 s2,
      iterations demoEnv (demoConfig maxInt64 50 50 0 0 0) 4611686018427387903 demoStart
        = some s1 ∧
      s1.state.Operations = 9223372036854775806 ∧
      s1.state.Operations < (demoConfig maxInt64 50 50 0 0 0).Operations ∧
      iteration demoEnv (demoConfig maxInt64 50 50 0 0 0) s1 = some s2 ∧
      s2.state.Operations = -9223372036854775808 ∧
      s2.state.Operations < s1.state.Operations) ∧
    (∃ s1 s2,
      iterations demoEnv (demoConfig maxInt64 50 50 0 0 0) 9223372036854775807 demoStart
        = some s1 ∧
      s1.state.Records = 9223372036854775807 ∧
      s1.state.Operations < (demoConfig maxInt64 50 50 0 0 0).Operations ∧
      iteration demoEnv (demoConfig maxInt64 50 50 0 0 0) s1 = some s2 ∧
      s2.state.Records = -9223372036854775808 ∧
      s2.state.Records < s1.state.Records) := by
  have hks : enabledKinds (demoConfig maxInt64 50 50 0 0 0) = [Kind.Create, Kind.Read] := by
    decide
  have h0 : InRange64 (0 : Int) := by decide
  constructor
  · obtain ⟨s1, e1, r1⟩ := iterations_ran demoEnv (demoConfig maxInt64 50 50 0 0 0)
      4611686018427387903 (s := demoStart) (init_ready _)
    obtain ⟨s2, e2, r2⟩ := iteration_ran demoEnv (demoConfig maxInt64 50 50 0 0 0) r1.ready
    have ho1 : s1.state.Operations = 9223372036854775806 := by
      rw [r1.operations, length_repeat, hks]
      show inc64^[_] (0 : Int) = _
      rw [inc64_iterate_wrap _ _ h0]
      decide
    have ho2 : s2.state.Operations = -9223372036854775808 := by
      rw [r2.operations, ho1, hks]
      decide
    refine ⟨s1, s2, e1, ho1, ?_, e2, ho2, ?_⟩
    · rw [ho1]; decide
    · rw [ho1, ho2]; decide
  · obtain ⟨s1, e1, r1⟩ := iterations_ran demoEnv (demoConfig maxInt64 50 50 0 0 0)
      9223372036854775807 (s := demoStart) (init_ready _)
    obtain ⟨s2, e2, r2⟩ := iteration_ran demoEnv (demoConfig maxInt64 50 50 0 0 0) r1.ready
    have ho1 : s1.state.Operations = -2 := by
      rw [r1.operations, length_repeat, hks]
      show inc64^[_] (0 : Int) = _
      rw [inc64_iterate_wrap _ _ h0]
      decide
    have hr1 : s1.state.Records = 9223372036854775807 := by
      rw [r1.records, count_repeat, hks]
      show inc64^[_] (0 : Int) = _
      rw [inc64_iterate_wrap _ _ h0]
      decide
    have hr2 : s2.state.Records = -9223372036854775808 := by
      rw [r2.records, hr1, hks]
      decide
    refine ⟨s1, s2, e1, hr1, ?_, e2, hr2, ?_⟩
    · rw [ho1]; decide
    · rw [hr1, hr2]; decide

theorem enabledKinds_count_le (config : Config) (k : Kind) :
    (enabledKinds config).count k ≤ 1 := by
  have h : (enabledKinds config).count k ≤ kindOrder.count k :=
    List.Sublist.count_le (List.filter_sublist _) k
  have : kindOrder.count k = 1 := by cases k <;> decide
  omega

/-- C4, amended: as long as neither `int64` counter wraps (here: `Operations`
plus the operations of `n` iterations, and `Records + n`, stay below `2^63`),
`Operations` and `Records` do not decrease over `n` iterations; `Records` grows
by exactly the number of Create calls made, whatever the database answers, so
from `Records = 0` and an empty trace it equals the number of Create calls; a
Create block adds 1 to `Records` and the other four blocks leave it unchanged. -/
theorem c4_counters_grow_below_wrap (env : Env W V Q) (config : Config) (s : Sys W)
    (n : Nat) (hr : LatencyReady s.state)
    (hinO : InRange64 s.state.Operations) (hinR : InRange64 s.state.Records)
    (hovO : s.state.Operations + n * (enabledKinds config).length < 9223372036854775808)
    (hovR : s.state.Records + n < 9223372036854775808) :
    (∃ s', iterations env config n s = some s' ∧
      s.state.Operations ≤ s'.state.Operations ∧
      s.state.Records ≤ s'.state.Records ∧
      s'.state.Records + (dbKinds s.trace).count Kind.Create
        = s.state.Records + (dbKinds s'.trace).count Kind.Create ∧
      (s.state.Records = 0 → s.trace = [] →
        s'.state.Records = (dbKinds s'.trace).count Kind.Create)) ∧
    (∀ t t' : Sys W, createStep env config t = some t' → config.CreatePercentage > 0 →
      InRange64 t.state.Records → t.state.Records + 1 < 9223372036854775808 →
      t'.state.Records = t.state.Records + 1) ∧
    (∀ t t' : Sys W, readStep env config t = some t' →
      t'.state.Records = t.state.Records) ∧
    (∀ t t' : Sys W, updateStep env config t = some t' →
      t'.state.Records = t.state.Records) ∧
    (∀ t t' : Sys W, deleteStep env config t = some t' →
      t'.state.Records = t.state.Records) ∧
    (∀ t t' : Sys W, queryStep env config t = some t' →
      t'.state.Records = t.state.Records) := by
  refine ⟨?_, ?_, fun t t' h => (readStep_frame env config h).2.2,
    fun t t' h => (updateStep_frame env config h).2.2,
    fun t t' h => (deleteStep_frame env config h).2.2,
    fun t t' h => (queryStep_frame env config h).2.2⟩
  · obtain ⟨s', e, ran⟩ := iterations_ran env config n hr
    have hc := enabledKinds_count_le config Kind.Create
    have hcn : n * (enabledKinds config).count Kind.Create ≤ n := by
      calc n * (enabledKinds config).count Kind.Create ≤ n * 1 := Nat.mul_le_mul_left n hc
        _ = n := Nat.mul_one n
    have hcn' : ((n * (enabledKinds config).count Kind.Create : Nat) : Int) ≤ (n : Int) := by
      exact_mod_cast hcn
    have hops : s'.state.Operations
        = s.state.Operations + (n * (enabledKinds config).length : Nat) := by
      rw [ran.operations, length_repeat]
      exact inc64_iterate_exact _ _ hinO (by push_cast; exact hovO)
    have hrec : s'.state.Records
        = s.state.Records + (n * (enabledKinds config).count Kind.Create : Nat) := by
      rw [ran.records, count_repeat]
      exact inc64_iterate_exact _ _ hinR (by linarith)
    have hcalls : (dbKinds s'.trace).count Kind.Create
        = (dbKinds s.trace).count Kind.Create
          + n * (enabledKinds config).count Kind.Create := by
      rw [ran.calls, List.count_append, count_repeat]
    refine ⟨s', e, ?_, ?_, ?_, ?_⟩
    · rw [hops]
      have : (0 : Int) ≤ ((n * (enabledKinds config).length : Nat) : Int) :=
        Int.natCast_nonneg _
      linarith
    · rw [hrec]
      have : (0 : Int) ≤ ((n * (enabledKinds config).count Kind.Create : Nat) : Int) :=
        Int.natCast_nonneg _
      linarith
    · rw [hrec, hcalls]; push_cast; ring
    · intro h0 htr
      rw [hrec, hcalls, h0, htr]
      simp [dbKinds]
  · intro t t' h hc hin hov
    rw [(createStep_frame env config h).2.2, if_pos hc]
    unfold inc64
    exact wrap64_of_inRange ⟨by have := hin.1; omega, hov⟩

theorem c4_counters_grow_below_wrap_witness :
    (∃ s', iterations demoEnv (demoConfig 10 50 50 0 0 0) 5 demoStart = some s' ∧
      demoStart.state.Operations ≤ s'.state.Operations ∧
      demoStart.state.Records ≤ s'.state.Records ∧
      s'.state.Records + (dbKinds demoStart.trace).count Kind.Create
        = demoStart.state.Records + (dbKinds s'.trace).count Kind.Create ∧
      (demoStart.state.Records = 0 → demoStart.trace = [] →
        s'.state.Records = (dbKinds s'.trace).count Kind.Create)) ∧
    (∀ t t' : Sys Nat, createStep demoEnv (demoConfig 10 50 50 0 0 0) t = some t' →
      (demoConfig 10 50 50 0 0 0).CreatePercentage > 0 →
      InRange64 t.state.Records → t.state.Records + 1 < 9223372036854775808 →
      t'.state.Records = t.state.Records + 1) ∧
    (∀ t t' : Sys Nat, readStep demoEnv (demoConfig 10 50 50 0 0 0) t = some t' →
      t'.state.Records = t.state.Records) ∧
    (∀ t t' : Sys Nat, updateStep demoEnv (demoConfig 10 50 50 0 0 0) t = some t' →
      t'.state.Records = t.state.Records) ∧
    (∀ t t' : Sys Nat, deleteStep demoEnv (demoConfig 10 50 50 0 0 0) t = some t' →
      t'.state.Records = t.state.Records) ∧
    (∀ t t' : Sys Nat, queryStep demoEnv (demoConfig 10 50 50 0 0 0) t = some t' →
      t'.state.Records = t.state.Records) :=
  c4_counters_grow_below_wrap demoEnv (demoConfig 10 50 50 0 0 0) demoStart 5 (init_ready _)
    (by decide) (by decide) (by decide) (by decide)

/-! ## A target of zero -/

theorem reportLoop_of_guard_false (env : Env W V Q) (config : Config) (fuel : Nat)
    (opsDone samples : Int) (s : Sys W) (out : List Line)
    (h : config.Operations ≤ s.state.Operations) :
    reportLoop env config fuel opsDone samples s out = Exec.returned (s, out) := by
  have : ¬ s.state.Operations < config.Operations := not_lt.2 h
  cases fuel <;> simp [reportLoop, this]

/-- C5: with a target of 0, after `Init()` on a state whose counters are 0 both
the executor and the throughput reporter return without entering their loops,
whatever the bound on iterations: no workload or database call is made, no
sample is added, the reporter prints only its opening line, the state keeps
`Operations = 0`, `Records = 0` and an empty `Errors` map, and the summary (with
whatever events the coordinator recorded) is the elapsed-time line alone. -/
theorem c5_zero_target_run (env : Env W V Q) (config : Config) (s0 : State) (w : W)
    (fuel : Nat) (events : List (String × Int))
    (hT : config.Operations = 0) (hops : s0.Operations = 0) (hrec : s0.Records = 0) :
    MeasureLatency env config fuel { state := s0.Init, world := w, trace := [] }
      = Exec.returned { state := s0.Init, world := w, trace := [] } ∧
    ReportThroughput env config fuel { state := s0.Init, world := w, trace := [] }
      = Exec.returned ({ state := s0.Init, world := w, trace := [] },
          [Line.benchmarkStarted]) ∧
    s0.Init.Operations = 0 ∧ s0.Init.Records = 0 ∧ s0.Init.Errors = [] ∧
    (∀ k : Kind, count s0.Init.Latency k.name = some 0) ∧
    ReportSummary env.runtime { s0.Init with Events := events }
      = some [Line.timeElapsed (env.runtime.sub (mapGet events "Finished" 0)
          (mapGet events "Started" 0))] := by
  have hg : config.Operations ≤ s0.Init.Operations := by
    show _ ≤ s0.Operations
    rw [hT, hops]
  refine ⟨measure_of_guard_false env config fuel hg, ?_, hops, hrec, rfl,
    init_count s0, rfl⟩
  exact reportLoop_of_guard_false env config fuel 0 1 _ _ hg

theorem c5_zero_target_run_witness :
    MeasureLatency demoEnv (demoConfig 0 20 20 20 20 20) 3
        { state := State.zero.Init, world := 0, trace := [] }
      = Exec.returned { state := State.zero.Init, world := 0, trace := [] } ∧
    ReportThroughput demoEnv (demoConfig 0 20 20 20 20 20) 3
        { state := State.zero.Init, world := 0, trace := [] }
      = Exec.returned ({ state := State.zero.Init, world := 0, trace := [] },
          [Line.benchmarkStarted]) ∧
    State.zero.Init.Operations = 0 ∧ State.zero.Init.Records = 0 ∧
    State.zero.Init.Errors = [] ∧
    (∀ k : Kind, count State.zero.Init.Latency k.name = some 0) ∧
    ReportSummary demoEnv.runtime
        { State.zero.Init with Events := [("Started", 100), ("Finished", 160)] }
      = some [Line.timeElapsed (demoEnv.runtime.sub
          (mapGet [("Started", 100), ("Finished", 160)] "Finished" 0)
          (mapGet [("Started", 100), ("Finished", 160)] "Started" 0))] :=
  c5_zero_target_run demoEnv (demoConfig 0 20 20 20 20 20) State.zero 0 3
    [("Started", 100), ("Finished", 160)] rfl rfl rfl

/-! ## Samples and calls -/

theorem enabledKinds_count_disabled (config : Config) (k : Kind)
    (h : enabled config k = false) : (enabledKinds config).count k = 0 := by
  rw [List.count_eq_zero]
  intro hm
  have := (List.mem_filter.1 hm).2
  rw [h] at this
  exact Bool.false_ne_true this

/-! ## The summary -/

theorem reportLatency_kinds (rt : Runtime W) (st : State) (hr : LatencyReady st)
    (ks : List Kind) :
    reportLatency rt st.Latency (ks.map Kind.name)
      = some ((ks.filter fun k => decide (0 < (sketch st k).length)).flatMap
          fun k => latencyBlock rt k.name (sketch st k)) := by
  induction ks with
  | nil => rfl
  | cons k ks ih =>
    have hk := hr k
    obtain ⟨v, hv⟩ := Option.isSome_iff_exists.1 hk
    have hs : sketch st k = v := by simp [sketch, mapGet, hv]
    simp only [List.map_cons, reportLatency, hv, ih, Option.map_some', hs]
    by_cases hpos : 0 < v.length
    · simp [List.filter_cons, hs, hpos]
    · simp [List.filter_cons, hs, hpos]

theorem count_eq_sketch (st : State) (hr : LatencyReady st) (k : Kind) :
    count st.Latency k.name = some (sketch st k).length := by
  obtain ⟨v, hv⟩ := Option.isSome_iff_exists.1 (hr k)
  simp [count, sketch, mapGet, hv]

theorem reportErrors_no_header (errors : List (String × Int)) (op : String) :
    Line.latencyHeader op ∉ reportErrors errors := by
  unfold reportErrors
  split_ifs <;> simp

/-- C8: for a state holding all five sketches (as after `Init()` and any number of
added samples), the summary consists of one block (header, 80th, 90th, 95th
percentile, mean) for each kind whose sketch has `Count() > 0`, in the order
Create, Read, Update, Delete, Query, then the error section, then the elapsed-time
line; a kind without samples has no header line in it; the last line is the
elapsed time, `Events["Finished"].Sub(Events["Started"])`. -/
theorem c8_summary_layout (rt : Runtime W) (st : State) (hr : LatencyReady st) :
    ∃ out, ReportSummary rt st = some out ∧
      out = ((kindOrder.filter fun k => decide (0 < (sketch st k).length)).flatMap
              fun k => [Line.latencyHeader k.name,
                Line.percentile80 (rt.percentile (sketch st k) 0.8),
                Line.percentile90 (rt.percentile (sketch st k) 0.9),
                Line.percentile95 (rt.percentile (sketch st k) 0.95),
                Line.mean (rt.mean (sketch st k))])
            ++ reportErrors st.Errors
            ++ [Line.timeElapsed (rt.sub (mapGet st.Events "Finished" 0)
                  (mapGet st.Events "Started" 0))] ∧
      (∀ k : Kind, count st.Latency k.name = some (sketch st k).length) ∧
      (∀ k : Kind, (sketch st k).length = 0 → Line.latencyHeader k.name ∉ out) ∧
      (∀ k : Kind, 0 < (sketch st k).length → Line.latencyHeader k.name ∈ out) ∧
      out.getLast? = some (Line.timeElapsed (rt.sub (mapGet st.Events "Finished" 0)
        (mapGet st.Events "Started" 0))) := by
  have h := reportLatency_kinds rt st hr kindOrder
  refine ⟨_, ?_, rfl, count_eq_sketch st hr, ?_, ?_, ?_⟩
  · unfold ReportSummary
    have hnames : ["Create", "Read", "Update", "Delete", "Query"]
        = kindOrder.map Kind.name := rfl
    rw [hnames, h]
    rfl
  · intro k hk hmem
    rw [List.mem_append, List.mem_append] at hmem
    rcases hmem with (hmem | hmem) | hmem
    · rw [List.mem_flatMap] at hmem
      obtain ⟨k', hk', hin⟩ := hmem
      have hpos := (List.mem_filter.1 hk').2
      simp only [List.mem_cons, Line.latencyHeader.injEq, List.mem_singleton,
        reduceCtorEq, or_false, List.mem_nil_iff] at hin
      have : k = k' := (kind_name_inj k k').1 hin
      subst this
      simp [hk] at hpos
    · exact reportErrors_no_header _ _ hmem
    · simp at hmem
  · intro k hk
    rw [List.mem_append, List.mem_append]
    left; left
    rw [List.mem_flatMap]
    refine ⟨k, List.mem_filter.2 ⟨by cases k <;> simp [kindOrder], by simpa using hk⟩, ?_⟩
    simp
  · simp

theorem c8_summary_layout_witness :
    LatencyReady demoFinal ∧
    ∃ out, ReportSummary demoRuntime demoFinal = some out ∧
      out = ((kindOrder.filter fun k => decide (0 < (sketch demoFinal k).length)).flatMap
              fun k => [Line.latencyHeader k.name,
                Line.percentile80 (demoRuntime.percentile (sketch demoFinal k) 0.8),
                Line.percentile90 (demoRuntime.percentile (sketch demoFinal k) 0.9),
                Line.percentile95 (demoRuntime.percentile (sketch demoFinal k) 0.95),
                Line.mean (demoRuntime.mean (sketch demoFinal k))])
            ++ reportErrors demoFinal.Errors
            ++ [Line.timeElapsed (demoRuntime.sub (mapGet demoFinal.Events "Finished" 0)
                  (mapGet demoFinal.Events "Started" 0))] ∧
      (∀ k : Kind, count demoFinal.Latency k.name = some (sketch demoFinal k).length) ∧
      (∀ k : Kind, (sketch demoFinal k).length = 0 → Line.latencyHeader k.name ∉ out) ∧
      (∀ k : Kind, 0 < (sketch demoFinal k).length → Line.latencyHeader k.name ∈ out) ∧
      out.getLast? = some (Line.timeElapsed
        (demoRuntime.sub (mapGet demoFinal.Events "Finished" 0)
          (mapGet demoFinal.Events "Started" 0))) :=
  ⟨by intro k; cases k <;> rfl,
   c8_summary_layout demoRuntime demoFinal (by intro k; cases k <;> rfl)⟩

/-- The summary of the example state, line by line. -/
theorem demoFinal_summary : ReportSummary demoRuntime demoFinal = some
    [Line.latencyHeader "Create", Line.percentile80 2, Line.percentile90 2,
     Line.percentile95 2, Line.mean 2,
     Line.latencyHeader "Read", Line.percentile80 3, Line.percentile90 3,
     Line.percentile95 3, Line.mean 3,
     Line.latencyHeader "Query", Line.percentile80 4, Line.percentile90 4,
     Line.percentile95 4, Line.mean 4,
     Line.timeElapsed 60] := by rfl

/-! ## Errors and events -/

theorem latencyBlock_no_errorsHeader (rt : Runtime W) (op : String) (stats : List Int) :
    Line.errorsHeader ∉ latencyBlock rt op stats := by
  simp [latencyBlock]

theorem reportLatency_no_errorsHeader (rt : Runtime W) (lat : List (String × List Int))
    (ops : List String) :
    ∀ out, reportLatency rt lat ops = some out → Line.errorsHeader ∉ out := by
  induction ops with
  | nil => intro out h; cases h; simp
  | cons op ops ih =>
    intro out h
    unfold reportLatency at h
    cases hl : lat.lookup op with
    | none => simp [hl] at h
    | some stats =>
      simp only [hl] at h
      obtain ⟨rest, hrest, rfl⟩ := Option.map_eq_some'.1 h
      intro hmem
      rw [List.mem_append] at hmem
      rcases hmem with hmem | hmem
      · split_ifs at hmem
        · exact latencyBlock_no_errorsHeader rt op stats hmem
        · simp at hmem
      · exact ih rest hrest hmem

theorem measure_frame (env : Env W V Q) (config : Config) (fuel : Nat) {s s' : Sys W}
    (h : MeasureLatency env config fuel s = Exec.returned s') :
    s'.state.Errors = s.state.Errors ∧ s'.state.Events = s.state.Events := by
  obtain ⟨n, _, e⟩ := measure_returned_iterations env config fuel h
  exact iterations_frame env config n e

/-- C9: the executor never changes `Errors` or `Events`: after any number of
iterations and whenever the run returns, both maps are what they were, for every
configuration, workload and database; the loop body never aborts on a state with
all five sketches, whatever the calls answer; hence after `Init()` and an
executor run `Errors` is empty, `Errors["total"]` reads 0, and the summary has no
error section. -/
theorem c9_errors_and_events_untouched (env : Env W V Q) (config : Config) (s : Sys W) :
    (∀ (n : Nat) (s' : Sys W), iterations env config n s = some s' →
      s'.state.Errors = s.state.Errors ∧ s'.state.Events = s.state.Events) ∧
    (∀ (fuel : Nat) (s' : Sys W), MeasureLatency env config fuel s = Exec.returned s' →
      s'.state.Errors = s.state.Errors ∧ s'.state.Events = s.state.Events) ∧
    (LatencyReady s.state → ∀ n : Nat, ∃ s', iterations env config n s = some s') ∧
    (∀ (s0 : State) (w : W) (fuel : Nat) (s' : Sys W),
      MeasureLatency env config fuel { state := s0.Init, world := w, trace := [] }
        = Exec.returned s' →
      s'.state.Errors = [] ∧ mapGet s'.state.Errors "total" 0 = 0 ∧
      reportErrors s'.state.Errors = [] ∧
      ∀ out, ReportSummary env.runtime s'.state = some out →
        Line.errorsHeader ∉ out) := by
  refine ⟨fun n s' h => iterations_frame env config n h,
    fun fuel s' h => measure_frame env config fuel h, ?_, ?_⟩
  · intro hr n
    obtain ⟨s', e, _⟩ := iterations_ran env config n hr
    exact ⟨s', e⟩
  · intro s0 w fuel s' h
    have he : s'.state.Errors = [] := (measure_frame env config fuel h).1
    refine ⟨he, by rw [he]; rfl, by rw [he]; rfl, ?_⟩
    intro out hout
    unfold ReportSummary at hout
    obtain ⟨lines, hlines, rfl⟩ := Option.map_eq_some'.1 hout
    have h1 := reportLatency_no_errorsHeader env.runtime _ _ lines hlines
    rw [he]
    intro hmem
    rw [List.mem_append, List.mem_append] at hmem
    rcases hmem with (hmem | hmem) | hmem
    · exact h1 hmem
    · simp [reportErrors] at hmem
    · simp at hmem

/-- C9, at a concrete input: five kinds enabled, a target of 7, a database that
fails every other call: the run returns with `Errors` and `Events` unchanged. -/
theorem c9_errors_and_events_untouched_witness :
    ∃ s', MeasureLatency demoEnv (demoConfig 7 1 1 1 1 1) 2 demoStart = Exec.returned s' ∧
      s'.state.Operations = 10 ∧
      s'.state.Errors = demoStart.state.Errors ∧ s'.state.Events = demoStart.state.Events :=
  ⟨_, rfl, rfl,
   (c9_errors_and_events_untouched demoEnv (demoConfig 7 1 1 1 1 1) demoStart).2.1 2 _ rfl⟩

/-- What a stretch of execution adds: the recording collaborators received
exactly the calls the blocks noted in the trace. -/
theorem createStep_log (env : Env W V Q) (config : Config) {s s' : Sys (W × List Call)}
    (h : createStep (recording env) config s = some s') :
    ∃ l, s'.log = s.log ++ l ∧ s'.trace = s.trace ++ l := by
  unfold createStep at h
  split_ifs at h with hc
  · obtain ⟨lat, _, rfl⟩ := Option.map_eq_some'.1 h
    exact ⟨_, by simp [Sys.log, recording], rfl⟩
  · cases h; exact ⟨[], by simp, by simp⟩

theorem readStep_log (env : Env W V Q) (config : Config) {s s' : Sys (W × List Call)}
    (h : readStep (recording env) config s = some s') :
    ∃ l, s'.log = s.log ++ l ∧ s'.trace = s.trace ++ l := by
  unfold readStep at h
  split_ifs at h with hc
  · obtain ⟨lat, _, rfl⟩ := Option.map_eq_some'.1 h
    exact ⟨_, by simp [Sys.log, recording], rfl⟩
  · cases h; exact ⟨[], by simp, by simp⟩

theorem updateStep_log (env : Env W V Q) (config : Config) {s s' : Sys (W × List Call)}
    (h : updateStep (recording env) config s = some s') :
    ∃ l, s'.log = s.log ++ l ∧ s'.trace = s.trace ++ l := by
  unfold updateStep at h
  split_ifs at h with hc
  · obtain ⟨lat, _, rfl⟩ := Option.map_eq_some'.1 h
    exact ⟨_, by simp [Sys.log, recording], rfl⟩
  · cases h; exact ⟨[], by simp, by simp⟩

theorem deleteStep_log (env : Env W V Q) (config : Config) {s s' : Sys (W × List Call)}
    (h : deleteStep (recording env) config s = some s') :
    ∃ l, s'.log = s.log ++ l ∧ s'.trace = s.trace ++ l := by
  unfold deleteStep at h
  split_ifs at h with hc
  · obtain ⟨lat, _, rfl⟩ := Option.map_eq_some'.1 h
    exact ⟨_, by simp [Sys.log, recording], rfl⟩
  · cases h; exact ⟨[], by simp, by simp⟩

theorem queryStep_log (env : Env W V Q) (config : Config) {s s' : Sys (W × List Call)}
    (h : queryStep (recording env) config s = some s') :
    ∃ l, s'.log = s.log ++ l ∧ s'.trace = s.trace ++ l := by
  unfold queryStep at h
  split_ifs at h with hc
  · obtain ⟨lat, _, rfl⟩ := Option.map_eq_some'.1 h
    exact ⟨_, by simp [Sys.log, recording], rfl⟩
  · cases h; exact ⟨[], by simp, by simp⟩

theorem sleepStep_log (env : Env W V Q) (s : Sys (W × List Call)) :
    ∃ l, (sleepStep (recording env) s).log = s.log ++ l ∧
      (sleepStep (recording env) s).trace = s.trace ++ l :=
  ⟨[Call.Sleep second], rfl, rfl⟩

theorem log_chain {s s1 s2 : Sys (W × List Call)}
    (h1 : ∃ l, s1.log = s.log ++ l ∧ s1.trace = s.trace ++ l)
    (h2 : ∃ l, s2.log = s1.log ++ l ∧ s2.trace = s1.trace ++ l) :
    ∃ l, s2.log = s.log ++ l ∧ s2.trace = s.trace ++ l := by
  obtain ⟨a, ha1, ha2⟩ := h1
  obtain ⟨b, hb1, hb2⟩ := h2
  exact ⟨a ++ b, by rw [hb1, ha1, List.append_assoc], by rw [hb2, ha2, List.append_assoc]⟩

/-- Over one pass through the loop body the log of the recording collaborators
and the trace grow by the same calls. -/
theorem iteration_log (env : Env W V Q) (config : Config) {s s' : Sys (W × List Call)}
    (h : iteration (recording env) config s = some s') :
    ∃ l, s'.log = s.log ++ l ∧ s'.trace = s.trace ++ l := by
  unfold iteration at h
  obtain ⟨t5, h5, rfl⟩ := Option.map_eq_some'.1 h
  obtain ⟨t4, h4, e5⟩ := Option.bind_eq_some.1 h5
  obtain ⟨t3, h3, e4⟩ := Option.bind_eq_some.1 h4
  obtain ⟨t2, h2, e3⟩ := Option.bind_eq_some.1 h3
  obtain ⟨t1, e1, e2⟩ := Option.bind_eq_some.1 h2
  exact log_chain (log_chain (log_chain (log_chain (log_chain
    (createStep_log env config e1) (readStep_log env config e2))
    (updateStep_log env config e3)) (deleteStep_log env config e4))
    (queryStep_log env config e5)) (sleepStep_log env t5)

theorem iterations_log (env : Env W V Q) (config : Config) (n : Nat) :
    ∀ {s s' : Sys (W × List Call)}, iterations (recording env) config n s = some s' →
      ∃ l, s'.log = s.log ++ l ∧ s'.trace = s.trace ++ l := by
  induction n with
  | zero => intro s s' h; cases h; exact ⟨[], by simp, by simp⟩
  | succ n ih =>
    intro s s' h
    obtain ⟨s1, e1, e2⟩ := Option.bind_eq_some.1 h
    exact log_chain (iteration_log env config e1) (ih e2)

/-- What the trace says of a stretch of execution holds of the calls the
recording collaborators received. -/
theorem Ran.logged {ks : List Kind} {sl : Nat} {s s' : Sys (W × List Call)}
    (ran : Ran ks sl s s') (h : ∃ l, s'.log = s.log ++ l ∧ s'.trace = s.trace ++ l) :
    dbKinds s'.log = dbKinds s.log ++ ks ∧
    existingKeyArgs s'.log = existingKeyArgs s.log ++ existingOf s.state.Records ks ∧
    sleeps s'.log = sleeps s.log + sl := by
  obtain ⟨l, hl, ht⟩ := h
  have h1 := ran.calls
  have h2 := ran.existing
  have h3 := ran.slept
  rw [ht] at h1 h2 h3
  simp only [dbKinds, List.filterMap_append, List.append_cancel_left_eq] at h1
  simp only [existingKeyArgs, List.filterMap_append, List.append_cancel_left_eq] at h2
  simp only [sleeps, List.filter_append, List.length_append, Nat.add_left_cancel_iff] at h3
  rw [hl]
  refine ⟨?_, ?_, ?_⟩
  · simp only [dbKinds, List.filterMap_append, h1]
  · simp only [existingKeyArgs, List.filterMap_append, h2]
  · simp only [sleeps, List.filter_append, List.length_append, h3]

/-! ## Calls received by the collaborators -/

/-- C1: a single worker started on a freshly initialised state (both counters 0)
with only the Create percentage positive and a target of `n` operations returns
(given at least `n` iterations); the database has then received exactly `n`
calls, all of them Create, `Records = n`, `Operations = n`, and the Create sketch
holds `n` samples.  The calls are the ones the recording database and workload
were handed, for every database and workload. -/
theorem c1_create_only_run (env : Env W V Q) (config : Config) (s0 : State) (w : W)
    (n fuel : Nat)
    (hops : s0.Operations = 0) (hrec : s0.Records = 0)
    (hT : config.Operations = n) (hrange : InRange64 config.Operations)
    (hc : config.CreatePercentage > 0) (hr : config.ReadPercentage = 0)
    (hu : config.UpdatePercentage = 0) (hd : config.DeletePercentage = 0)
    (hq : config.QueryPercentage = 0) (hfuel : n ≤ fuel) :
    ∃ s', MeasureLatency (recording env) config fuel
        { state := s0.Init, world := (w, []), trace := [] } = Exec.returned s' ∧
      dbKinds s'.log = List.replicate n Kind.Create ∧
      sleeps s'.log = n ∧
      s'.state.Records = n ∧ s'.state.Operations = n ∧
      count s'.state.Latency "Create" = some n := by
  have hks : enabledKinds config = [Kind.Create] := by
    rw [enabledKinds_eq]; simp [hc, hr, hu, hd, hq]
  have hn : (n : Int) < 9223372036854775808 := by
    have := hrange.2; rw [hT] at this; exact this
  have hin : InRange64 (0 : Int) := by unfold InRange64; omega
  obtain ⟨s', hrun, hiter⟩ := measure_exact (recording env) config n
    (s := { state := s0.Init, world := (w, []), trace := [] }) fuel (init_ready s0)
    (by show InRange64 s0.Operations; rw [hops]; exact hin) hfuel
    (by
      intro i hi
      show s0.Operations + _ < _
      rw [hops, hks, hT]; simp; exact hi)
    (by show _ ≤ s0.Operations + _; rw [hops, hks, hT]; simp)
    (by show s0.Operations + _ < _; rw [hops, hks]; simpa using hn)
  obtain ⟨s'', hiter', ran⟩ := iterations_ran (recording env) config n
    (s := { state := s0.Init, world := (w, []), trace := [] }) (init_ready s0)
  rw [hiter] at hiter'
  cases hiter'
  obtain ⟨hcalls, _, hslept⟩ := ran.logged (iterations_log env config n hiter)
  rw [hks, List.flatten_replicate_singleton] at ran hcalls
  refine ⟨s', hrun, ?_, ?_, ?_, ?_, ?_⟩
  · simpa [dbKinds, Sys.log] using hcalls
  · simpa [sleeps, Sys.log] using hslept
  · rw [ran.records]
    show inc64^[_] s0.Records = _
    rw [hrec, List.count_replicate_self, inc64_iterate_exact n 0 hin (by simpa using hn)]
    simp
  · rw [ran.operations]
    show inc64^[_] s0.Operations = _
    rw [hops, List.length_replicate, inc64_iterate_exact n 0 hin (by simpa using hn)]
    simp
  · have := ran.counts Kind.Create
    rw [init_count] at this
    simpa [Kind.name] using this

theorem c1_create_only_run_witness :
    ∃ s', MeasureLatency (recording demoEnv) (demoConfig 5 100 0 0 0 0) 5 demoRecStart
        = Exec.returned s' ∧
      dbKinds s'.log = List.replicate 5 Kind.Create ∧
      sleeps s'.log = 5 ∧
      s'.state.Records = (5 : Nat) ∧ s'.state.Operations = (5 : Nat) ∧
      count s'.state.Latency "Create" = some 5 :=
  c1_create_only_run demoEnv (demoConfig 5 100 0 0 0 0) State.zero 0 5 5 rfl rfl rfl
    (by decide) (by decide) rfl rfl rfl rfl (le_refl _)

/-- The calls of a run with two Creates, as the collaborators received them. -/
theorem demo_create_log :
    ∃ s', MeasureLatency (recording demoEnv) (demoConfig 2 100 0 0 0 0) 2 demoRecStart
        = Exec.returned s' ∧
      s'.log = [Call.GenerateNewKey 1, Call.GenerateValue "new", Call.Create "new",
        Call.Sleep second, Call.GenerateNewKey 2, Call.GenerateValue "new",
        Call.Create "new", Call.Sleep second] :=
  ⟨_, rfl, rfl⟩

/-- With only Read enabled, one pass through the loop body hands the workload
`GenerateExistingKey(Records)`, hands the database a Read of the key that came
back, and sleeps. -/
theorem read_only_iteration_log (env : Env W V Q) (config : Config)
    (s : Sys (W × List Call)) (hr : LatencyReady s.state)
    (hread : config.ReadPercentage > 0) (hc : config.CreatePercentage ≤ 0)
    (hu : config.UpdatePercentage ≤ 0) (hd : config.DeletePercentage ≤ 0)
    (hq : config.QueryPercentage ≤ 0) :
    ∃ s1, iteration (recording env) config s = some s1 ∧
      s1.log = s.log ++ [Call.GenerateExistingKey s.state.Records,
        Call.Read (env.workload.GenerateExistingKey s.state.Records s.world.1).1,
        Call.Sleep second] := by
  have hR : (s.state.Latency.lookup "Read").isSome = true := hr Kind.Read
  have h1 : createStep (recording env) config s = some s := by
    simp [createStep, not_lt.2 hc]
  obtain ⟨s1, e1, _⟩ := readStep_ran (recording env) config hr
  have hlog : s1.log = s.log ++ [Call.GenerateExistingKey s.state.Records,
      Call.Read (env.workload.GenerateExistingKey s.state.Records s.world.1).1] := by
    have e := e1
    unfold readStep at e
    simp only [hread, if_true, addSample_some _ hR, Option.map_some',
      Option.some.injEq] at e
    rw [← e]
    simp [Sys.log, recording]
  have h3 : updateStep (recording env) config s1 = some s1 := by
    simp [updateStep, not_lt.2 hu]
  have h4 : deleteStep (recording env) config s1 = some s1 := by
    simp [deleteStep, not_lt.2 hd]
  have h5 : queryStep (recording env) config s1 = some s1 := by
    simp [queryStep, not_lt.2 hq]
  refine ⟨sleepStep (recording env) s1, ?_, ?_⟩
  · simp [iteration, h1, e1, h3, h4, h5]
  · show (s1.world.2 ++ [Call.Sleep second]) = _
    have : s1.world.2 = s1.log := rfl
    rw [this, hlog]
    simp

/-- C3, counterexample: on a freshly initialised state (`Records = 0`) with only
the Read percentage positive and a target of 1, the workload receives
`GenerateExistingKey(0)` and the database then receives a Read. -/
theorem c3_reads_empty_keyspace :
    demoRecStart.state.Records = 0 ∧
    ∃ s', MeasureLatency (recording demoEnv) (demoConfig 1 0 50 0 0 0) 1 demoRecStart
        = Exec.returned s' ∧
      s'.log = [Call.GenerateExistingKey 0, Call.Read "old", Call.Sleep second] ∧
      s'.state.Records = 0 :=
  ⟨rfl, _, rfl, rfl, rfl⟩

/-- C3, amended: given a state with `Records = 0` and a configuration in which
only the Read percentage is positive, the executor does read the empty keyspace.
With `Operations` below the target, the first calls it makes are
`GenerateExistingKey(0)` and a `database.Read` of the key that came back; with a
generator that returns a key on every call it performs target minus `Operations`
such reads, the database receives no other call, every `GenerateExistingKey` is
given 0, and `Records` stays 0.  The calls are the ones the recording database
and workload were handed. -/
theorem c3_reads_with_zero_records (env : Env W V Q) (config : Config)
    (s : Sys (W × List Call)) (m fuel : Nat)
    (hr : LatencyReady s.state) (hrec : s.state.Records = 0)
    (hin : InRange64 s.state.Operations) (hrange : InRange64 config.Operations)
    (hm : config.Operations - s.state.Operations = m)
    (hread : config.ReadPercentage > 0) (hc : config.CreatePercentage ≤ 0)
    (hu : config.UpdatePercentage ≤ 0) (hd : config.DeletePercentage ≤ 0)
    (hq : config.QueryPercentage ≤ 0) (hfuel : m ≤ fuel) :
    ∃ s', MeasureLatency (recording env) config fuel s = Exec.returned s' ∧
      dbKinds s'.log = dbKinds s.log ++ List.replicate m Kind.Read ∧
      existingKeyArgs s'.log = existingKeyArgs s.log ++ List.replicate m 0 ∧
      s'.state.Records = 0 ∧
      (0 < m → ∃ rest, s'.log = s.log ++ Call.GenerateExistingKey 0
        :: Call.Read (env.workload.GenerateExistingKey 0 s.world.1).1 :: rest) := by
  have hks : enabledKinds config = [Kind.Read] := by
    rw [enabledKinds_eq]
    simp [hread, not_lt.2 hc, not_lt.2 hu, not_lt.2 hd, not_lt.2 hq]
  have hT := hrange.2
  obtain ⟨s', hrun, hiter⟩ := measure_exact (recording env) config m fuel hr hin hfuel
    (by
      intro i hi
      rw [hks]
      have : (i : Int) < (m : Int) := by exact_mod_cast hi
      simp only [List.length_singleton, Nat.cast_one, mul_one]
      linarith)
    (by rw [hks]; simp only [List.length_singleton, Nat.cast_one, mul_one]; linarith)
    (by rw [hks]; simp only [List.length_singleton, Nat.cast_one, mul_one]; linarith)
  obtain ⟨s'', hiter', ran⟩ := iterations_ran (recording env) config m hr
  rw [hiter] at hiter'
  cases hiter'
  obtain ⟨hcalls, hexisting, _⟩ := ran.logged (iterations_log env config m hiter)
  rw [hks, List.flatten_replicate_singleton] at ran hcalls hexisting
  refine ⟨s', hrun, hcalls, ?_, ?_, ?_⟩
  · rw [hexisting, hrec, existingOf_reads]
  · rw [ran.records, hrec, List.count_replicate]
    simp
  · intro hpos
    obtain ⟨k, rfl⟩ : ∃ k, m = k + 1 := ⟨m - 1, by omega⟩
    obtain ⟨s1, e1, e2⟩ := Option.bind_eq_some.1 hiter
    obtain ⟨s1', e1', hlog1⟩ := read_only_iteration_log env config s hr hread hc hu hd hq
    rw [e1] at e1'
    cases e1'
    obtain ⟨l, hl, _⟩ := iterations_log env config k e2
    refine ⟨Call.Sleep second :: l, ?_⟩
    rw [hl, hlog1, hrec]
    simp

theorem c3_reads_with_zero_records_witness :
    ∃ s', MeasureLatency (recording demoEnv) (demoConfig 3 0 50 0 0 0) 3 demoRecStart
        = Exec.returned s' ∧
      dbKinds s'.log = dbKinds demoRecStart.log ++ List.replicate 3 Kind.Read ∧
      existingKeyArgs s'.log
        = existingKeyArgs demoRecStart.log ++ List.replicate 3 0 ∧
      s'.state.Records = 0 ∧
      ((0 : Nat) < 3 → ∃ rest, s'.log = demoRecStart.log ++ Call.GenerateExistingKey 0
        :: Call.Read (demoEnv.workload.GenerateExistingKey 0 demoRecStart.world.1).1
        :: rest) :=
  c3_reads_with_zero_records demoEnv (demoConfig 3 0 50 0 0 0) demoRecStart 3 3
    (init_ready _) rfl (by decide) (by decide) rfl (by decide) (by decide) (by decide)
    (by decide) (by decide) (le_refl _)

/-- C6: in every iteration the database receives exactly the enabled kinds among
Create, Read, Update, Delete, Query, in that order, once each; and with only
Create and Read enabled and a target of 10, a run from `Operations = 0`,
`Records = 0` and an empty log returns (given at least 5 iterations) after the
database received Create, Read five times over, the workload was asked for an
existing key among 1, 2, 3, 4, 5 records in turn, and `Operations = 10`, which is
at least the target.  The calls are the ones the recording database and workload
were handed, for every database and workload. -/
theorem c6_kind_order_per_iteration (env : Env W V Q) (config : Config)
    (s : Sys (W × List Call)) (hr : LatencyReady s.state) :
    (∃ s', iteration (recording env) config s = some s' ∧
      dbKinds s'.log = dbKinds s.log ++ kindOrder.filter (enabled config) ∧
      existingKeyArgs s'.log = existingKeyArgs s.log
        ++ existingOf s.state.Records (kindOrder.filter (enabled config))) ∧
    (config.CreatePercentage > 0 → config.ReadPercentage > 0 →
      config.UpdatePercentage ≤ 0 → config.DeletePercentage ≤ 0 →
      config.QueryPercentage ≤ 0 → config.Operations = 10 →
      s.state.Operations = 0 → s.state.Records = 0 → s.log = [] →
      ∀ fuel : Nat, 5 ≤ fuel →
        ∃ s', MeasureLatency (recording env) config fuel s = Exec.returned s' ∧
          dbKinds s'.log = [Kind.Create, Kind.Read, Kind.Create, Kind.Read, Kind.Create,
            Kind.Read, Kind.Create, Kind.Read, Kind.Create, Kind.Read] ∧
          existingKeyArgs s'.log = [1, 2, 3, 4, 5] ∧
          s'.state.Operations = 10 ∧ config.Operations ≤ s'.state.Operations) := by
  constructor
  · obtain ⟨s', e, ran⟩ := iteration_ran (recording env) config hr
    obtain ⟨h1, h2, _⟩ := ran.logged (iteration_log env config e)
    exact ⟨s', e, h1, h2⟩
  · intro hc hread hu hd hq hT hops hrec hlog fuel hf
    have hks : enabledKinds config = [Kind.Create, Kind.Read] := by
      rw [enabledKinds_eq]
      simp [hc, hread, not_lt.2 hu, not_lt.2 hd, not_lt.2 hq]
    obtain ⟨s', hrun, hiter⟩ := measure_exact (recording env) config 5 fuel hr
      (by rw [hops]; decide) hf
      (by
        intro i hi
        rw [hks, hops, hT]
        have : (i : Int) < 5 := by exact_mod_cast hi
        simp only [List.length_cons, List.length_nil]
        push_cast
        linarith)
      (by rw [hks, hops, hT]; decide)
      (by rw [hks, hops]; decide)
    obtain ⟨s'', hiter', ran⟩ := iterations_ran (recording env) config 5 hr
    rw [hiter] at hiter'
    cases hiter'
    obtain ⟨hcalls, hexisting, _⟩ := ran.logged (iterations_log env config 5 hiter)
    rw [hks] at ran hcalls hexisting
    have hops' : s'.state.Operations = 10 := by
      rw [ran.operations, hops]; decide
    refine ⟨s', hrun, ?_, ?_, hops', ?_⟩
    · rw [hcalls, hlog]; rfl
    · rw [hexisting, hlog, hrec]; decide
    · rw [hops', hT]

theorem c6_kind_order_per_iteration_witness :
    (∃ s', iteration (recording demoEnv) (demoConfig 10 50 50 0 0 0) demoRecStart
        = some s' ∧
      dbKinds s'.log = dbKinds demoRecStart.log
        ++ kindOrder.filter (enabled (demoConfig 10 50 50 0 0 0)) ∧
      existingKeyArgs s'.log = existingKeyArgs demoRecStart.log
        ++ existingOf demoRecStart.state.Records
            (kindOrder.filter (enabled (demoConfig 10 50 50 0 0 0)))) ∧
    (∀ fuel : Nat, 5 ≤ fuel →
        ∃ s', MeasureLatency (recording demoEnv) (demoConfig 10 50 50 0 0 0) fuel
            demoRecStart = Exec.returned s' ∧
          dbKinds s'.log = [Kind.Create, Kind.Read, Kind.Create, Kind.Read, Kind.Create,
            Kind.Read, Kind.Create, Kind.Read, Kind.Create, Kind.Read] ∧
          existingKeyArgs s'.log = [1, 2, 3, 4, 5] ∧
          s'.state.Operations = 10 ∧
          (demoConfig 10 50 50 0 0 0).Operations ≤ s'.state.Operations) :=
  ⟨(c6_kind_order_per_iteration demoEnv (demoConfig 10 50 50 0 0 0) demoRecStart
      (init_ready _)).1,
   (c6_kind_order_per_iteration demoEnv (demoConfig 10 50 50 0 0 0) demoRecStart
      (init_ready _)).2 (by decide) (by decide) (by decide) (by decide) (by decide)
      rfl rfl rfl rfl⟩

/-- The calls of one iteration with all five kinds enabled, as the collaborators
received them. -/
theorem demo_iteration_log :
    ∃ s', iteration (recording demoEnv) (demoConfig 10 1 1 1 1 1) demoRecStart = some s' ∧
      s'.log = [Call.GenerateNewKey 1, Call.GenerateValue "new", Call.Create "new",
        Call.GenerateExistingKey 1, Call.Read "old",
        Call.GenerateExistingKey 1, Call.GenerateValue "old", Call.Update "old",
        Call.GenerateKeyForRemoval, Call.Delete "gone",
        Call.GenerateQuery 1, Call.Query "field" 1,
        Call.Sleep second] :=
  ⟨_, rfl, rfl⟩

/-- After `n` passes from a freshly initialised state every sketch holds as many
samples as the database received calls of its kind. -/
theorem fresh_counts (env : Env W V Q) (config : Config) (s0 : State) (w : W) (n : Nat)
    {s' : Sys (W × List Call)}
    (h : iterations (recording env) config n
      { state := s0.Init, world := (w, []), trace := [] } = some s')
    (k : Kind) :
    count s'.state.Latency k.name = some ((dbKinds s'.log).count k) ∧
      (enabled config k = false → count s'.state.Latency k.name = some 0) := by
  obtain ⟨s'', e, ran⟩ := iterations_ran (recording env) config n
    (s := { state := s0.Init, world := (w, []), trace := [] }) (init_ready s0)
  rw [h] at e
  cases e
  have hc := ran.counts k
  rw [init_count] at hc
  obtain ⟨hcalls, _, _⟩ := ran.logged (iterations_log env config n h)
  have hcalls' : dbKinds s'.log = (List.replicate n (enabledKinds config)).flatten := by
    rw [hcalls]; rfl
  constructor
  · rw [hc, hcalls']; simp
  · intro hd
    rw [hc, count_repeat, enabledKinds_count_disabled config k hd]
    simp

/-- C7: on a freshly initialised state, whatever the database and the workload
answer, after any number of iterations (they never abort) and whenever the run
returns, each sketch holds exactly as many samples as the database received
calls of its kind, and the sketch of a kind whose percentage is not positive is
empty; one iteration has the database receive one call of each enabled kind and
adds one sample to the sketch of each of them and none to the others.  The calls
are the ones the recording database was handed. -/
theorem c7_one_sample_per_call (env : Env W V Q) (config : Config) (s0 : State) (w : W) :
    (∀ n : Nat, ∃ s',
      iterations (recording env) config n
        { state := s0.Init, world := (w, []), trace := [] } = some s' ∧
      ∀ k : Kind, count s'.state.Latency k.name = some ((dbKinds s'.log).count k) ∧
        (enabled config k = false → count s'.state.Latency k.name = some 0)) ∧
    (∀ (fuel : Nat) (s' : Sys (W × List Call)),
      MeasureLatency (recording env) config fuel
        { state := s0.Init, world := (w, []), trace := [] } = Exec.returned s' →
      ∀ k : Kind, count s'.state.Latency k.name = some ((dbKinds s'.log).count k) ∧
        (enabled config k = false → count s'.state.Latency k.name = some 0)) ∧
    (∀ s : Sys (W × List Call), LatencyReady s.state →
      ∃ s', iteration (recording env) config s = some s' ∧
      dbKinds s'.log = dbKinds s.log ++ kindOrder.filter (enabled config) ∧
      ∀ k : Kind, count s'.state.Latency k.name
        = (count s.state.Latency k.name).map
            (· + (kindOrder.filter (enabled config)).count k)) := by
  refine ⟨?_, ?_, ?_⟩
  · intro n
    obtain ⟨s', e, _⟩ := iterations_ran (recording env) config n
      (s := { state := s0.Init, world := (w, []), trace := [] }) (init_ready s0)
    exact ⟨s', e, fresh_counts env config s0 w n e⟩
  · intro fuel s' h
    obtain ⟨n, _, e⟩ := measure_returned_iterations (recording env) config fuel h
    exact fresh_counts env config s0 w n e
  · intro s hr
    obtain ⟨s', e, ran⟩ := iteration_ran (recording env) config hr
    exact ⟨s', e, (ran.logged (iteration_log env config e)).1, ran.counts⟩

/-- C7, at a concrete input: Create, Read and Query enabled, a target of 7 and a
database that fails every other call: three iterations, three samples each. -/
theorem c7_one_sample_per_call_witness :
    ∃ s', MeasureLatency (recording demoEnv) (demoConfig 7 1 1 0 0 1) 3 demoRecStart
        = Exec.returned s' ∧
      dbKinds s'.log = [Kind.Create, Kind.Read, Kind.Query, Kind.Create, Kind.Read,
        Kind.Query, Kind.Create, Kind.Read, Kind.Query] ∧
      ∀ k : Kind, count s'.state.Latency k.name = some ((dbKinds s'.log).count k) ∧
        (enabled (demoConfig 7 1 1 0 0 1) k = false →
          count s'.state.Latency k.name = some 0) :=
  ⟨_, rfl, rfl,
   (c7_one_sample_per_call demoEnv (demoConfig 7 1 1 0 0 1) State.zero 0).2.1 3 _ rfl⟩

end Workloads
